import Mathlib

/-!
Verification development for the `vk_validation_stats.py` consistency checker.

The script cross-checks four artifacts: a delimited database file
(`ValidationDatabase.read`), the `validusage.json` specification
(`ValidationJSON.ExtractVUIDs` / `ValidationJSON.read`), the layer source
files (`ValidationSource.parse`), and the test source (`TestParser.parse`),
then reconciles them in `main`.

Python strings are modelled as `List Char` (`Str`), and the Python string
methods used by the script (`strip`, `lstrip`, `split`, `startswith`,
`endswith`, the `in` operator, slicing `[:-2]`) are given faithful list
implementations below.  Files are modelled as lists of line contents without
their newline; iteration (`for line in f`) delivers each line with a trailing
newline character appended, which matches Python for text files that end with
a final newline.
-/

/-- Python strings are modelled as lists of characters. -/
abbrev Str := List Char

/-- Embed a Lean string literal as a modelled Python string. -/
def lit (s : String) : Str := s.toList

/-- Whitespace test matching the characters stripped by Python
`str.strip()` / `str.split()` on the ASCII inputs the script reads. -/
def isWS (c : Char) : Bool :=
  c = ' ' || c = '\t' || c = '\n' || c = '\r' || c = '\x0b' || c = '\x0c'

/-- Python `s.startswith(p)`. -/
def startsWithL : Str → Str → Bool
  | [], _ => true
  | _ :: _, [] => false
  | p :: ps, c :: cs => p = c && startsWithL ps cs

/-- Python `s.endswith(p)`. -/
def endsWithL (p s : Str) : Bool := startsWithL p.reverse s.reverse

/-- Python `p in s` (substring containment). -/
def containsL (p : Str) : Str → Bool
  | [] => p.isEmpty
  | c :: cs => startsWithL p (c :: cs) || containsL p cs

/-- Python `s.lstrip()` restricted to whitespace. -/
def dropLeadingWS (s : Str) : Str := s.dropWhile isWS

/-- Python `s.rstrip()` restricted to whitespace. -/
def dropTrailingWS (s : Str) : Str := (s.reverse.dropWhile isWS).reverse

/-- Python `s.strip()`. -/
def pyStrip (s : Str) : Str := dropTrailingWS (dropLeadingWS s)

/-- Python `s.strip(cs)` for an explicit character set. -/
def pyStripChars (cs : List Char) (s : Str) : Str :=
  ((s.dropWhile (cs.contains ·)).reverse.dropWhile (cs.contains ·)).reverse

/-- Python `s.lstrip('"')`: drop every leading double quote. -/
def lstripQuotes (s : Str) : Str := s.dropWhile (· = '\"')

/-- Python `s[:-2]`: the string without its last two characters. -/
def sliceToNeg2 (s : Str) : Str := s.dropLast.dropLast

/-- Helper for `pySplitWs`: fold characters from the right, building
whitespace-separated tokens (a leading empty token may remain). -/
def pySplitWsAux : Str → List Str
  | [] => []
  | c :: rest =>
    let acc := pySplitWsAux rest
    if isWS c then
      match acc with
      | [] => []
      | t :: _ => if t = [] then acc else [] :: acc
    else
      match acc with
      | [] => [[c]]
      | t :: ts => (c :: t) :: ts

/-- Python `s.split()` with no argument: split on whitespace runs,
yielding no empty tokens. -/
def pySplitWs (s : Str) : List Str :=
  match pySplitWsAux s with
  | [] => []
  | t :: ts => if t = [] then ts else t :: ts

/-- Helper for `pySplitOnSub`: split on the separator `sep`,
accumulating the current chunk in reverse.  The extra `Nat` argument is
fuel that makes the recursion structural; every step consumes at least
one character, so fuel equal to the string length never runs out and the
fuel-exhausted branch is unreachable. -/
def splitOnSubAux (sep : Str) : Nat → Str → Str → List Str
  | _, [], acc => [acc.reverse]
  | 0, _ :: _, acc => [acc.reverse]
  | fuel + 1, c :: rest, acc =>
    if startsWithL sep (c :: rest) then
      acc.reverse :: splitOnSubAux sep fuel ((c :: rest).drop sep.length) []
    else
      splitOnSubAux sep fuel rest (c :: acc)

/-- Python `s.split(sep)` for a non-empty separator: left-to-right
non-overlapping splitting, keeping empty chunks. -/
def pySplitOnSub (sep : Str) (s : Str) : List Str :=
  match sep with
  | [] => [s]
  | _ :: _ => splitOnSubAux sep s.length s []

/-- Python `s.lower()` (ASCII). -/
def pyLower (s : Str) : Str := s.map Char.toLower

/-- Lookup in a Python-dict model (association list with unique keys). -/
def lookupA (k : Str) : List (Str × α) → Option α
  | [] => none
  | (k2, v) :: rest => if k2 = k then some v else lookupA k rest

/-- The per-entry overwrite used by `dictSet`. -/
def setEntry (k : Str) (v : α) (e : Str × α) : Str × α :=
  if e.1 = k then (k, v) else e

/-- Python dict assignment `d[k] = v`: overwrite the existing entry for `k`
or append a new one. -/
def dictSet (d : List (Str × α)) (k : Str) (v : α) : List (Str × α) :=
  if (lookupA k d).isSome then
    d.map (setEntry k v)
  else
    d ++ [(k, v)]

/-! ## ValidationSource: the layer-source scanner (`ValidationSource.parse`) -/

/-- The marker `"VUID-` that identifies a validation identifier token. -/
def vuidMark : Str := lit "\"VUID-"

/-- The two-character tail `-"` of a clang-broken identifier. -/
def dashQuote : Str := lit "-\""

/-- Character set of `str.strip(',);{}\"')` used on source tokens. -/
def srcStripSet : List Char := [',', ')', ';', '\x7b', '\x7d', '\"']

/-- A line is skipped when its stripped form starts with `//` or `/*`
(the `True in [line.strip().startswith(comment) ...]` test). -/
def isCommentLine (line : Str) : Bool :=
  startsWithL (lit "//") (pyStrip line) || startsWithL (lit "/*") (pyStrip line)

/-- Per-identifier data of `vuid_count_dict`: the use count and the
`(file, line)` locations (the script stores them as `'%s,%d'` strings;
they are modelled as pairs). -/
structure VuidInfo where
  count : Nat
  file_line : List (Str × Nat)
  deriving DecidableEq

/-- State threaded through `ValidationSource.parse`: the pending broken
line (`prepend`), the occurrence map (`vuid_count_dict`) and the
`duplicate_checks` counter. -/
structure SrcState where
  prepend : Option Str
  vuid_count_dict : List (Str × VuidInfo)
  duplicate_checks : Nat
  deriving DecidableEq

/-- The update applied to an existing entry of `vuid_count_dict` when
`vuid` is seen again: bump its count and append the new location. -/
def bumpEntry (sf : Str) (n : Nat) (vuid : Str) (e : Str × VuidInfo) : Str × VuidInfo :=
  if e.1 = vuid then (e.1, ⟨e.2.count + 1, e.2.file_line ++ [(sf, n)]⟩) else e

/-- Record one occurrence of `vuid` at `(sf, n)`, as in the body of the
`for vuid in vuid_list` loop. -/
def insertVuid (sf : Str) (n : Nat) (st : SrcState) (vuid : Str) : SrcState :=
  match lookupA vuid st.vuid_count_dict with
  | none =>
    { st with vuid_count_dict :=
        st.vuid_count_dict ++ [(vuid, ⟨1, [(sf, n)]⟩)] }
  | some _ =>
    { st with
      vuid_count_dict := st.vuid_count_dict.map (bumpEntry sf n vuid),
      duplicate_checks := st.duplicate_checks + 1 }

/-- The last element of `line.split()` (`line_list[-1]`); the default is
never reached on lines that contain `vuidMark`. -/
def lastTok (line : Str) : Str := (pySplitWs line).getLastD []

/-- The broken-identifier test: the last token starts with `"VUID-` and
ends with `-"`. -/
def brokenTail (line : Str) : Bool :=
  startsWithL vuidMark (lastTok line) && endsWithL dashQuote (lastTok line)

/-- The identifiers extracted from a (possibly reassembled) line: every
whitespace token containing the marker, stripped of `,);{}"`. -/
def extractVuids (line : Str) : List Str :=
  ((pySplitWs line).filter (containsL vuidMark ·)).map (pyStripChars srcStripSet)

/-- Processing of one line after the comment test and the prepend join:
the `if '"VUID-' in line:` block of `ValidationSource.parse`. -/
def srcLineCore (sf : Str) (n : Nat) (st : SrcState) (line : Str) : SrcState :=
  if containsL vuidMark line then
    if brokenTail line then
      { st with prepend := some line }
    else
      (extractVuids line).foldl (insertVuid sf n) st
  else st

/-- Processing of one physical line (delivered with its trailing newline)
of a source file, including the comment skip and the broken-line join
`prepend[:-2] + line.lstrip().lstrip('"')`. -/
def srcProcessLine (sf : Str) (n : Nat) (st : SrcState) (rawline : Str) : SrcState :=
  if isCommentLine rawline then st
  else
    match st.prepend with
    | some p =>
      srcLineCore sf n { st with prepend := none }
        (sliceToNeg2 p ++ lstripQuotes (dropLeadingWS rawline))
    | none => srcLineCore sf n st rawline

/-- Process the lines of one file, numbering them from `n + 1`; each
content line is delivered with a trailing newline, as Python iteration
does for a file ending in a newline. -/
def srcRunLines (sf : Str) (n : Nat) (st : SrcState) : List Str → SrcState
  | [] => st
  | l :: rest => srcRunLines sf (n + 1) (srcProcessLine sf (n + 1) st (l ++ ['\n'])) rest

/-- Scan one source file (`line_num` restarts at 0 for each file). -/
def srcParseFile (sf : Str) (st : SrcState) (lines : List Str) : SrcState :=
  srcRunLines sf 0 st lines

/-- Scan a list of `(filename, lines)` source files.  Note that `prepend`
is NOT reset between files: it is initialised once, before the file loop. -/
def srcParseFiles (st : SrcState) : List (Str × List Str) → SrcState
  | [] => st
  | f :: rest => srcParseFiles (srcParseFile f.1 st f.2) rest

/-- `ValidationSource.parse` over a list of `(filename, lines)` files. -/
def ValidationSource.parse (files : List (Str × List Str)) : SrcState :=
  srcParseFiles ⟨none, [], 0⟩ files

/-- The `duplicate_exceptions` allow-list, verbatim from the script
(each entry retains its surrounding double quotes). -/
def duplicate_exceptions : List Str :=
  [ lit "\"VUID-vkDestroyInstance-instance-00629\"",
    lit "\"VUID-vkDestroyDevice-device-00378\"",
    lit "\"VUID-VkCommandBufferBeginInfo-flags-00055\"",
    lit "\"VUID-VkRenderPassCreateInfo-attachment-00833\"",
    lit "\"VUID-VkPipelineShaderStageCreateInfo-module-parameter\"",
    lit "\"VUID-VkMappedMemoryRange-memory-parameter\"",
    lit "\"VUID-VkImageSubresource-aspectMask-parameter\"",
    lit "\"VUID-VkWriteDescriptorSet-descriptorType-00325\"",
    lit "\"VUID-vkCmdClearColorImage-image-00007\"",
    lit "\"VUID-vkCmdSetScissor-x-00595\"",
    lit "\"VUID-VkSwapchainCreateInfoKHR-surface-parameter\"",
    lit "\"VUID-VkSwapchainCreateInfoKHR-oldSwapchain-parameter\"",
    lit "\"VUID-VkSwapchainCreateInfoKHR-imageFormat-01273\"",
    lit "\"VUID-VkWriteDescriptorSet-descriptorType-00330\"" ]

/-- The `multiple_uses` computation of `main`: some occurrence count
exceeds 1 for a key not in `duplicate_exceptions`. -/
def multipleUsesFlag (counts : List (Str × VuidInfo)) : Bool :=
  counts.any (fun e => decide (1 < e.2.count) && !(duplicate_exceptions.contains e.1))

/-! ## ValidationJSON: the validusage.json reader -/

/-- The JSON-derived document tree: scalars (modelled as strings),
arrays, and mappings with string keys. -/
inductive Json where
  | str (s : String)
  | arr (elems : List Json)
  | obj (entries : List (String × Json))

mutual

/-- `ValidationJSON.ExtractVUIDs(d)`: only a mapping produces anything
(`hasattr(d, 'items')`); its entries are walked in order. -/
def ValidationJSON.ExtractVUIDs : Json → List Json
  | .obj kvs => extractEntries kvs
  | _ => []

/-- The `for k, v in d.items()` loop: a `"vuid"` key yields its value; a
dict value is recursed into; each element of a list value is passed back
to `ExtractVUIDs` (so a list nested inside a list yields nothing). -/
def extractEntries : List (String × Json) → List Json
  | [] => []
  | (k, v) :: rest =>
    (if k = "vuid" then [v]
     else
       match v with
       | .obj kvs => extractEntries kvs
       | .arr l => extractElems l
       | .str _ => []) ++ extractEntries rest

/-- The `for l in v: for s in self.ExtractVUIDs(l)` loop. -/
def extractElems : List Json → List Json
  | [] => []
  | j :: rest => ValidationJSON.ExtractVUIDs j ++ extractElems rest

end

mutual

/-- Modelled from the spec: the values of every mapping entry whose key
is `"vuid"`, at arbitrary nesting depth (full depth-first traversal,
including arrays nested within arrays).  This is the claim's notion of
extraction completeness, to be compared with `ExtractVUIDs`. -/
def specVuidValues : Json → List Json
  | .str _ => []
  | .arr l => specVuidElems l
  | .obj kvs => specVuidEntries kvs

/-- Spec-style traversal of mapping entries. -/
def specVuidEntries : List (String × Json) → List Json
  | [] => []
  | (k, v) :: rest =>
    (if k = "vuid" then [v] else []) ++ specVuidValues v ++ specVuidEntries rest

/-- Spec-style traversal of array elements. -/
def specVuidElems : List Json → List Json
  | [] => []
  | j :: rest => specVuidValues j ++ specVuidElems rest

end

mutual

/-- Documents on which `ExtractVUIDs` reaches every `"vuid"` entry: no
array directly inside an array, and `"vuid"` values containing no further
`"vuid"` entries. -/
def goodJson : Json → Bool
  | .str _ => true
  | .arr l => goodElems l
  | .obj kvs => goodEntries kvs

/-- Goodness of array elements: no element is itself an array. -/
def goodElems : List Json → Bool
  | [] => true
  | j :: rest =>
    (match j with
     | .arr _ => false
     | _ => goodJson j) && goodElems rest

/-- Goodness of mapping entries. -/
def goodEntries : List (String × Json) → Bool
  | [] => true
  | (k, v) :: rest =>
    (if k = "vuid" then (specVuidValues v).isEmpty else goodJson v) && goodEntries rest

end

/-- Python `len` of the parsed document (`len(self.json_dict)`). -/
def docLen : Json → Nat
  | .str s => s.length
  | .arr l => l.length
  | .obj kvs => kvs.length

/-- Failure modes of `ValidationJSON.read`: the file is absent (the
`self.json_dict` attribute is never assigned, so `len(self.json_dict)`
raises and the process aborts) or the parsed document is empty
(`sys.exit(-1)`).  Both abort the run with a non-zero exit status. -/
inductive JsonReadError where
  | attributeError
  | emptyDocExit
  deriving DecidableEq

/-- `ValidationJSON.read`, over an input that is `none` when the file is
absent and `some d` for a parseable document `d`.  On success the vuid
strings are the extracted values (the script adds them to a set). -/
def ValidationJSON.read (file : Option Json) : Except JsonReadError (List Json) :=
  match file with
  | none => .error .attributeError
  | some d =>
    if docLen d = 0 then .error .emptyDocExit
    else .ok (ValidationJSON.ExtractVUIDs d)

/-! ## ValidationDatabase: the delimited database reader -/

/-- One parsed database row (all fields except the key `vuid_string`). -/
structure DbRecord where
  error_enum : Str
  check_implemented : Str
  testname : Str
  api : Str
  core_ext : Str
  error_string : Str
  note : Str
  deriving DecidableEq

/-- State built by `ValidationDatabase.read`: the complete record dict,
the derived sets, the vuid-to-tests dict, and the reported format
errors (the `ERROR: Bad database line ...` prints). -/
structure DbState where
  db_dict : List (Str × DbRecord)
  db_vuid_to_tests : List (Str × List Str)
  db_implemented_vuids : Finset Str
  db_unimplemented_implicit : Finset Str
  db_invalid_implemented : Finset Str
  format_errors : List Str
  deriving DecidableEq

/-- The empty database state. -/
def dbInit : DbState := ⟨[], [], ∅, ∅, ∅, []⟩

/-- The `~^~` field delimiter. -/
def dbDelimiter : Str := lit "~^~"

/-- Process the eight fields of a database line (the body after the
`db_line = line.split(...)` indexing succeeded). -/
def dbProcessFields (st : DbState) (e0 e1 e2 e3 e4 e5 e6 e7 : Str) : DbState :=
  let st := { st with db_dict := dictSet st.db_dict e4 ⟨e0, e1, e2, e3, e5, e6, e7⟩ }
  let st :=
    if e1 = lit "Y" then
      { st with db_implemented_vuids := insert e4 st.db_implemented_vuids }
    else if containsL (lit "implicit") e7 then
      { st with db_unimplemented_implicit := insert e4 st.db_unimplemented_implicit }
    else st
  let st :=
    if e1 = lit "Y" ∨ e1 = lit "N" then st
    else { st with db_invalid_implemented := insert e4 st.db_invalid_implemented }
  if pyLower e2 = lit "unknown" ∨ pyLower e2 = lit "none" ∨ pyLower e2 = lit "nottestable" then st
  else { st with db_vuid_to_tests := dictSet st.db_vuid_to_tests e4 (pySplitOnSub [','] e2) }

/-- Process one raw database line.  A wrong field count is reported
(`format_errors`) but processing then falls through to the field
accesses `db_line[0] .. db_line[7]`, which abort with an IndexError when
fewer than 8 fields are present; with more than 8 fields the first 8 are
used. -/
def dbProcessLine (st : DbState) (rawline : Str) : Except Unit DbState :=
  let line := pyStrip rawline
  if startsWithL ['#'] line || line = [] then .ok st
  else
    let db_line := pySplitOnSub dbDelimiter line
    let st :=
      if db_line.length = 8 then st
      else { st with format_errors := st.format_errors ++ [line] }
    if 8 ≤ db_line.length then
      .ok (dbProcessFields st (db_line.getD 0 []) (db_line.getD 1 []) (db_line.getD 2 [])
        (db_line.getD 3 []) (db_line.getD 4 []) (db_line.getD 5 []) (db_line.getD 6 [])
        (db_line.getD 7 []))
    else .error ()

/-- Fold `dbProcessLine` over the file's lines, stopping at an abort. -/
def dbRunLines (st : DbState) : List Str → Except Unit DbState
  | [] => .ok st
  | l :: rest =>
    match dbProcessLine st (l ++ ['\n']) with
    | .error e => .error e
    | .ok st2 => dbRunLines st2 rest

/-- `ValidationDatabase.read` over the database file's line contents. -/
def ValidationDatabase.read (lines : List Str) : Except Unit DbState :=
  dbRunLines dbInit lines

/-! ## TestParser: the test-source scanner (`TestParser.parse`) -/

/-- The trigger substrings `TEST_F(%s` for the three test group names. -/
def testTriggers : List Str :=
  [ lit "TEST_F(VkLayerTest",
    lit "TEST_F(VkPositiveLayerTest",
    lit "TEST_F(VkWsiEnabledLayerTest" ]

/-- `True in [ttt in line for ttt in self.test_trigger_txt_list]`. -/
def anyTrigger (line : Str) : Bool := testTriggers.any (containsL · line)

/-- Character set of the test-name trim `strip(' {)')`. -/
def nameStripSet : List Char := [' ', '\x7b', ')']

/-- Character set of the test-vuid trim `strip(',);\"')`. -/
def testStripSet : List Char := [',', ')', ';', '\"']

/-- State threaded through `TestParser.parse`. -/
structure TestState where
  grab_next_line : Bool
  testname : Str
  prepend : Option Str
  test_to_errors : List (Str × List Str)
  deriving DecidableEq

/-- The initial `TestParser.parse` state (set once, before the file loop). -/
def testInit : TestState := ⟨false, [], none, []⟩

/-- The `if grab_next_line:` block: the stored test name (left over from
the trigger line, hence empty) is re-trimmed and registered. -/
def grabStage (st : TestState) : TestState :=
  if st.grab_next_line then
    let nm := pyStripChars nameStripSet (pyStrip st.testname)
    { st with
      grab_next_line := false, testname := nm,
      test_to_errors := dictSet st.test_to_errors nm [] }
  else st

/-- The final `if '"VUID-' in line:` block: append each marker token,
trimmed, to the current test's list.  `self.test_to_errors[testname]`
raises a KeyError (modelled as `.error ()`) when the current test name
has never been registered. -/
def vuidAppendStage (st : TestState) (line : Str) : Except Unit TestState :=
  if containsL vuidMark line then
    ((pySplitWs line).filter (containsL vuidMark ·)).foldlM
      (fun s tok =>
        match lookupA s.testname s.test_to_errors with
        | none => .error ()
        | some errs =>
          .ok { s with
            test_to_errors :=
              dictSet s.test_to_errors s.testname (errs ++ [pyStripChars testStripSet tok]) })
      st
  else .ok st

/-- The test name computed from a trigger line: the text after the last
comma (`line.split(',')[-1]`), stripped of whitespace and of `' {)'`. -/
def triggerName (line : Str) : Str :=
  pyStripChars nameStripSet (pyStrip ((pySplitOnSub [','] line).getLastD []))

/-- Processing of one physical line of a test file (delivered with its
trailing newline): comment skip, broken-line join, broken-tail check,
trigger handling, grab-next-line handling, vuid collection. -/
def testProcessLine (st0 : TestState) (rawline : Str) : Except Unit TestState :=
  if isCommentLine rawline then .ok st0
  else
    let line :=
      match st0.prepend with
      | some p => sliceToNeg2 p ++ lstripQuotes (dropLeadingWS rawline)
      | none => rawline
    let st := { st0 with prepend := none }
    if containsL vuidMark line && brokenTail line then
      .ok { st with prepend := some line }
    else
      if anyTrigger line then
        let nm := triggerName line
        if nm = [] then .ok { st with testname := nm, grab_next_line := true }
        else
          let st := { st with
            testname := nm,
            test_to_errors := dictSet st.test_to_errors nm [] }
          vuidAppendStage (grabStage st) line
      else vuidAppendStage (grabStage st) line

/-- Fold `testProcessLine` over one file's lines. -/
def testRunLines (st : TestState) : List Str → Except Unit TestState
  | [] => .ok st
  | l :: rest =>
    match testProcessLine st (l ++ ['\n']) with
    | .error e => .error e
    | .ok st2 => testRunLines st2 rest

/-- Fold over the test files (state persists across files). -/
def testRunFiles (st : TestState) : List (List Str) → Except Unit TestState
  | [] => .ok st
  | f :: rest =>
    match testRunLines st f with
    | .error e => .error e
    | .ok st2 => testRunFiles st2 rest

/-- `TestParser.parse` over a list of test files. -/
def TestParser.parse (files : List (List Str)) : Except Unit TestState :=
  testRunFiles testInit files

/-! ## main: the reconciliation pass and exit status -/

/-- The `bad_testnames` list of `main`: every test name referenced by
`db_vuid_to_tests` that is not a key of `test_to_errors`. -/
def badTestnames (db_vuid_to_tests test_to_errors : List (Str × List Str)) : List Str :=
  db_vuid_to_tests.foldl
    (fun acc e => acc ++ e.2.filter (fun t => lookupA t test_to_errors = none)) []

/-- The `result` computed by `main` after all four artifacts are loaded,
mirroring the four `result = 1` assignments.  The advisory computations
(`multiple_uses`, `tests_missing_vuid`) are carried along but never touch
`result`. -/
def mainResult (db_invalid_implemented : Finset Str) (db_keys : Finset Str)
    (json_vuids : Finset Str) (db_implemented_vuids : Finset Str)
    (vuid_count_dict : List (Str × VuidInfo))
    (db_vuid_to_tests test_to_errors : List (Str × List Str)) : Nat :=
  let result : Nat := 0
  let result := if 0 < db_invalid_implemented.card then 1 else result
  let db_missing := json_vuids \ db_keys
  let json_missing := db_keys \ json_vuids
  let result :=
    if db_keys.card = json_vuids.card ∧ db_missing = ∅ ∧ json_missing = ∅ then result
    else 1
  let imp_vuids := (vuid_count_dict.map Prod.fst).toFinset
  let imp_not_found := db_implemented_vuids \ imp_vuids
  let imp_not_claimed := imp_vuids \ db_implemented_vuids
  let _multiple_uses := multipleUsesFlag vuid_count_dict
  let result := if imp_not_found = ∅ ∧ imp_not_claimed = ∅ then result else 1
  let result := if badTestnames db_vuid_to_tests test_to_errors = [] then result else 1
  result

/-! ## Lemmas about the modelled Python string operations -/

theorem startsWithL_append_of_self (p y : Str) : startsWithL p (p ++ y) = true := by
  induction p with
  | nil => rfl
  | cons a t ih => simp [startsWithL, ih]

theorem startsWithL_append_of_left {p s : Str} (h : startsWithL p s = true) (t : Str) :
    startsWithL p (s ++ t) = true := by
  induction p generalizing s with
  | nil => rfl
  | cons a ps ih =>
    cases s with
    | nil => simp [startsWithL] at h
    | cons b s2 =>
      simp only [List.cons_append, startsWithL, List.append_eq, Bool.and_eq_true] at h ⊢
      exact ⟨h.1, ih h.2⟩

theorem containsL_append_of_left {p s : Str} (h : containsL p s = true) (t : Str) :
    containsL p (s ++ t) = true := by
  induction s with
  | nil =>
    simp [containsL] at h
    subst h
    cases t with
    | nil => rfl
    | cons c cs => simp [containsL, startsWithL]
  | cons c cs ih =>
    simp only [containsL, Bool.or_eq_true, List.cons_append, List.append_eq] at h ⊢
    rcases h with h | h
    · left
      have := startsWithL_append_of_left h t
      simpa using this
    · right; exact ih h

theorem containsL_sandwich (p x y : Str) (hp : p ≠ []) : containsL p (x ++ p ++ y) = true := by
  induction x with
  | nil =>
    cases p with
    | nil => exact absurd rfl hp
    | cons a t =>
      simp only [List.nil_append, List.cons_append, containsL, Bool.or_eq_true]
      left
      have := startsWithL_append_of_self (a :: t) y
      simpa using this
  | cons c cs ih =>
    simp only [List.cons_append, containsL, Bool.or_eq_true]
    right
    simpa using ih

theorem startsWithL_append_notmem {p : Str} {c : Char} (hc : c ∉ p) (s : Str) :
    p ≠ [] → startsWithL p (s ++ [c]) = startsWithL p s := by
  induction p generalizing s with
  | nil => intro hp; exact absurd rfl hp
  | cons a t ih =>
    intro _
    cases s with
    | nil =>
      have hac : a ≠ c := fun h => hc (h ▸ List.mem_cons_self a t)
      simp [startsWithL, hac]
    | cons b s2 =>
      simp only [List.cons_append, startsWithL, List.append_eq]
      cases t with
      | nil => simp [startsWithL]
      | cons a2 t2 =>
        rw [ih (fun h => hc (List.mem_cons_of_mem a h)) s2 (by simp)]

theorem containsL_append_notmem {p : Str} {c : Char} (hp : p ≠ []) (hc : c ∉ p) (s : Str) :
    containsL p (s ++ [c]) = containsL p s := by
  induction s with
  | nil =>
    cases p with
    | nil => exact absurd rfl hp
    | cons a t =>
      have hac : a ≠ c := fun h => hc (h ▸ List.mem_cons_self a t)
      simp [containsL, startsWithL, hac]
  | cons b s2 ih =>
    simp only [List.cons_append, containsL, List.append_eq]
    rw [ih, show b :: (s2 ++ [c]) = (b :: s2) ++ [c] from rfl,
      startsWithL_append_notmem hc (b :: s2) hp]

theorem dropTrailingWS_append_ws {c : Char} (hc : isWS c = true) (s : Str) :
    dropTrailingWS (s ++ [c]) = dropTrailingWS s := by
  simp [dropTrailingWS, List.dropWhile, hc]

theorem dropLeadingWS_append_allws {w : Str} (hw : ∀ ch ∈ w, isWS ch = true) (x : Str) :
    dropLeadingWS (w ++ x) = dropLeadingWS x := by
  simp only [dropLeadingWS]
  rw [List.dropWhile_append]
  simp [List.dropWhile_eq_nil_iff.mpr hw]

theorem pyStrip_append_ws {c : Char} (hc : isWS c = true) (s : Str) :
    pyStrip (s ++ [c]) = pyStrip s := by
  simp only [pyStrip, dropLeadingWS]
  rw [List.dropWhile_append]
  by_cases h : (s.dropWhile isWS).isEmpty
  · simp [h, List.dropWhile, hc, List.isEmpty_iff.mp h, dropTrailingWS]
  · simp only [h, if_false]
    exact dropTrailingWS_append_ws hc _

theorem isCommentLine_append_ws {c : Char} (hc : isWS c = true) (s : Str) :
    isCommentLine (s ++ [c]) = isCommentLine s := by
  simp [isCommentLine, pyStrip_append_ws hc]

theorem pySplitWsAux_append_ws {c : Char} (hc : isWS c = true) (s : Str) :
    pySplitWsAux (s ++ [c]) = pySplitWsAux s := by
  induction s with
  | nil => simp [pySplitWsAux, hc]
  | cons d s2 ih => simp only [List.cons_append, pySplitWsAux, List.append_eq, ih]

theorem pySplitWs_append_ws {c : Char} (hc : isWS c = true) (s : Str) :
    pySplitWs (s ++ [c]) = pySplitWs s := by
  simp [pySplitWs, pySplitWsAux_append_ws hc]

theorem lastTok_append_ws {c : Char} (hc : isWS c = true) (s : Str) :
    lastTok (s ++ [c]) = lastTok s := by
  simp [lastTok, pySplitWs_append_ws hc]

theorem brokenTail_append_ws {c : Char} (hc : isWS c = true) (s : Str) :
    brokenTail (s ++ [c]) = brokenTail s := by
  simp [brokenTail, lastTok_append_ws hc]

theorem extractVuids_append_ws {c : Char} (hc : isWS c = true) (s : Str) :
    extractVuids (s ++ [c]) = extractVuids s := by
  simp [extractVuids, pySplitWs_append_ws hc]

theorem lstripQuotes_fix_append {r : Str} (hr : lstripQuotes r = r) (c : Char)
    (hc : c ≠ '\"') : lstripQuotes (r ++ [c]) = r ++ [c] := by
  cases r with
  | nil => simp [lstripQuotes, List.dropWhile, hc]
  | cons h t =>
    have hh : (h = '\"') = False := by
      simp only [eq_iff_iff, iff_false]
      intro he
      rw [lstripQuotes, List.dropWhile] at hr
      simp [he] at hr
      have := congrArg List.length hr
      simp at this
      have hle : (t.dropWhile fun x => decide (x = '\"')).length ≤ t.length :=
        (List.dropWhile_sublist _).length_le
      omega
    simp [lstripQuotes, List.dropWhile, hh]

/-- The comment test only looks at leading whitespace-stripped text:
the trailing strip of `pyStrip` cannot change whether a line starts with
`//` or `/*`. -/
theorem startsWithL_pyStrip_eq {p : Str} (hp : ∀ ch ∈ p, isWS ch = false) (s : Str) :
    startsWithL p (pyStrip s) = startsWithL p (dropLeadingWS s) := by
  have hdec : dropLeadingWS s =
      dropTrailingWS (dropLeadingWS s) ++
        ((dropLeadingWS s).reverse.takeWhile isWS).reverse := by
    simp only [dropTrailingWS]
    rw [← List.reverse_append, ← List.takeWhile_append_dropWhile isWS (dropLeadingWS s).reverse]
    simp
  have hws : ∀ ch ∈ ((dropLeadingWS s).reverse.takeWhile isWS).reverse, isWS ch = true := by
    intro ch hch
    rw [List.mem_reverse] at hch
    exact List.mem_takeWhile_imp hch
  -- prefix check ignores an all-whitespace suffix when the pattern has none
  rw [pyStrip]
  conv_rhs => rw [hdec]
  generalize dropTrailingWS (dropLeadingWS s) = d at *
  generalize ((dropLeadingWS s).reverse.takeWhile isWS).reverse = w at *
  clear hdec
  induction p generalizing d with
  | nil => rfl
  | cons a t ih =>
    cases d with
    | nil =>
      cases w with
      | nil => rfl
      | cons cw tw =>
        have haw : a ≠ cw := by
          intro he
          have h1 := hp a (List.mem_cons_self a t)
          have h2 := hws cw (List.mem_cons_self cw tw)
          rw [he] at h1
          rw [h1] at h2
          exact Bool.false_ne_true h2
        simp [startsWithL, haw]
    | cons b d2 =>
      simp only [List.cons_append, startsWithL, List.append_eq]
      cases t with
      | nil => simp [startsWithL]
      | cons a2 t2 =>
        rw [ih (fun ch hch => hp ch (List.mem_cons_of_mem a hch)) d2]

theorem isCommentLine_eq_dropLeading (s : Str) :
    isCommentLine s =
      (startsWithL (lit "//") (dropLeadingWS s) || startsWithL (lit "/*") (dropLeadingWS s)) := by
  rw [isCommentLine, startsWithL_pyStrip_eq (by decide), startsWithL_pyStrip_eq (by decide)]

theorem dropLeadingWS_append_cons_nonws (c0 : Str) {d : Char} (hd : isWS d = false) (x : Str) :
    dropLeadingWS (c0 ++ d :: x) = dropLeadingWS c0 ++ d :: x := by
  simp only [dropLeadingWS]
  rw [List.dropWhile_append]
  by_cases h : (c0.dropWhile isWS).isEmpty
  · simp [h, List.dropWhile_cons, hd, List.isEmpty_iff.mp h]
  · simp [h]

theorem startsWithL_two_dash {q1 : Char} (q2 : Char) (h1 : q1 ≠ '-') (D x y : Str) :
    startsWithL [q1, q2] (D ++ '-' :: x) = startsWithL [q1, q2] (D ++ '-' :: y) := by
  match D with
  | [] => simp [startsWithL, h1]
  | [d] => simp [startsWithL]
  | d :: d2 :: D2 => simp [startsWithL]

/-- Whether a line whose text ends in a dash (followed by anything) is a
comment line does not depend on what follows the dash. -/
theorem isCommentLine_dash_indep (c0 x y : Str) :
    isCommentLine (c0 ++ '-' :: x) = isCommentLine (c0 ++ '-' :: y) := by
  rw [isCommentLine_eq_dropLeading, isCommentLine_eq_dropLeading,
    dropLeadingWS_append_cons_nonws c0 (by decide) x,
    dropLeadingWS_append_cons_nonws c0 (by decide) y,
    show (lit "//") = ['/', '/'] from by decide,
    show (lit "/*") = ['/', '*'] from by decide,
    startsWithL_two_dash '/' (by decide) _ x y,
    startsWithL_two_dash '*' (by decide) _ x y]

/-- A line that is leading whitespace followed by a double quote is never
skipped as a comment. -/
theorem isCommentLine_ws_quote {w : Str} (hw : ∀ ch ∈ w, isWS ch = true) (z : Str) :
    isCommentLine (w ++ '\"' :: z) = false := by
  rw [isCommentLine_eq_dropLeading, dropLeadingWS_append_allws hw]
  have hq : dropLeadingWS ('\"' :: z) = '\"' :: z := by
    simp [dropLeadingWS, List.dropWhile_cons, show isWS '\"' = false from by decide]
  rw [hq, show (lit "//") = ['/', '/'] from by decide,
    show (lit "/*") = ['/', '*'] from by decide]
  simp [startsWithL, show ('/' = '\"') = False from by decide]

/-! ## Projections of the scanner state that ignore recorded line numbers -/

/-- The keys and counts of the occurrence map, forgetting locations. -/
def countsProj (counts : List (Str × VuidInfo)) : List (Str × Nat) :=
  counts.map (fun e => (e.1, e.2.count))

/-- The recorded occurrence count of `v` (0 when absent). -/
def countOf (v : Str) (counts : List (Str × VuidInfo)) : Nat :=
  match lookupA v counts with
  | some i => i.count
  | none => 0

/-- Two scanner states that agree on everything except the recorded
`(file, line)` location lists. -/
def projEq (s1 s2 : SrcState) : Prop :=
  s1.prepend = s2.prepend ∧
  countsProj s1.vuid_count_dict = countsProj s2.vuid_count_dict ∧
  s1.duplicate_checks = s2.duplicate_checks

theorem projEq_refl (s : SrcState) : projEq s s := ⟨rfl, rfl, rfl⟩

theorem lookupA_isSome_of_proj {c1 c2 : List (Str × VuidInfo)}
    (h : countsProj c1 = countsProj c2) (v : Str) :
    (lookupA v c1).isSome = (lookupA v c2).isSome := by
  induction c1 generalizing c2 with
  | nil =>
    cases c2 with
    | nil => rfl
    | cons e t => simp [countsProj] at h
  | cons e t ih =>
    cases c2 with
    | nil => simp [countsProj] at h
    | cons e2 t2 =>
      simp only [countsProj, List.map_cons, List.cons.injEq, Prod.mk.injEq] at h
      obtain ⟨⟨hk, _⟩, h2⟩ := h
      simp only [lookupA, hk]
      by_cases hv : e2.1 = v
      · simp [hv]
      · simp only [hv, if_false]
        exact ih h2

theorem countOf_eq_of_proj {c1 c2 : List (Str × VuidInfo)}
    (h : countsProj c1 = countsProj c2) (v : Str) : countOf v c1 = countOf v c2 := by
  induction c1 generalizing c2 with
  | nil =>
    cases c2 with
    | nil => rfl
    | cons e t => simp [countsProj] at h
  | cons e t ih =>
    cases c2 with
    | nil => simp [countsProj] at h
    | cons e2 t2 =>
      simp only [countsProj, List.map_cons, List.cons.injEq, Prod.mk.injEq] at h
      obtain ⟨⟨hk, hcnt⟩, h2⟩ := h
      simp only [countOf, lookupA, hk]
      by_cases hv : e2.1 = v
      · simp [hv, hcnt]
      · simp only [hv, if_false]
        exact ih h2

theorem bumpEntry_same (sf : Str) (n : Nat) (v : Str) (w : VuidInfo) :
    bumpEntry sf n v (v, w) = (v, ⟨w.count + 1, w.file_line ++ [(sf, n)]⟩) := by
  simp [bumpEntry]

theorem bumpEntry_other (sf : Str) (n : Nat) {v k : Str} (hk : k ≠ v) (w : VuidInfo) :
    bumpEntry sf n v (k, w) = (k, w) := by
  simp [bumpEntry, hk]

theorem countsProj_bump (c : List (Str × VuidInfo)) (v sf : Str) (n : Nat) :
    countsProj (c.map (bumpEntry sf n v)) =
      (countsProj c).map fun q => if q.1 = v then (q.1, q.2 + 1) else q := by
  induction c with
  | nil => rfl
  | cons e t ih =>
    obtain ⟨k, w⟩ := e
    simp only [List.map_cons, countsProj] at ih ⊢
    by_cases hv : k = v
    · subst hv
      simp [bumpEntry_same, ih]
    · simp [bumpEntry_other sf n hv, hv, ih]

theorem projEq_insertVuid {s1 s2 : SrcState} (h : projEq s1 s2) (sf : Str) (n m : Nat)
    (v : Str) : projEq (insertVuid sf n s1 v) (insertVuid sf m s2 v) := by
  obtain ⟨hp, hc, hd⟩ := h
  have hsome := lookupA_isSome_of_proj hc v
  unfold insertVuid
  cases hl1 : lookupA v s1.vuid_count_dict with
  | none =>
    have hl2 : lookupA v s2.vuid_count_dict = none := by
      rw [hl1] at hsome
      cases hx : lookupA v s2.vuid_count_dict with
      | none => rfl
      | some i => rw [hx] at hsome; simp at hsome
    rw [hl2]
    exact ⟨hp, by simpa [countsProj] using hc, hd⟩
  | some i1 =>
    have hl2 : ∃ i2, lookupA v s2.vuid_count_dict = some i2 := by
      rw [hl1] at hsome
      cases hx : lookupA v s2.vuid_count_dict with
      | none => rw [hx] at hsome; simp at hsome
      | some i2 => exact ⟨i2, rfl⟩
    obtain ⟨i2, hl2⟩ := hl2
    rw [hl2]
    refine ⟨hp, ?_, by simp [hd]⟩
    simp only [countsProj_bump, hc]

theorem projEq_foldl_insert {s1 s2 : SrcState} (h : projEq s1 s2) (sf : Str) (n m : Nat)
    (l : List Str) :
    projEq (l.foldl (insertVuid sf n) s1) (l.foldl (insertVuid sf m) s2) := by
  induction l generalizing s1 s2 with
  | nil => exact h
  | cons v t ih => exact ih (projEq_insertVuid h sf n m v)

theorem projEq_srcLineCore {s1 s2 : SrcState} (h : projEq s1 s2) (sf : Str) (n m : Nat)
    (line : Str) : projEq (srcLineCore sf n s1 line) (srcLineCore sf m s2 line) := by
  obtain ⟨hp, hc, hd⟩ := h
  unfold srcLineCore
  by_cases h1 : containsL vuidMark line = true
  · simp only [h1, if_true]
    by_cases h2 : brokenTail line = true
    · simp only [h2, if_true]
      exact ⟨rfl, hc, hd⟩
    · simp only [eq_false_of_ne_true h2, if_false, Bool.false_eq_true]
      exact projEq_foldl_insert ⟨hp, hc, hd⟩ sf n m _
  · simp only [eq_false_of_ne_true h1, if_false, Bool.false_eq_true]
    exact ⟨hp, hc, hd⟩

theorem projEq_srcProcessLine {s1 s2 : SrcState} (h : projEq s1 s2) (sf : Str) (n m : Nat)
    (raw : Str) : projEq (srcProcessLine sf n s1 raw) (srcProcessLine sf m s2 raw) := by
  obtain ⟨hp, hc2, hd⟩ := h
  by_cases h1 : isCommentLine raw = true
  · simp only [srcProcessLine, h1, if_true]
    exact ⟨hp, hc2, hd⟩
  · cases hp1 : s1.prepend with
    | none =>
      have hp2 : s2.prepend = none := by rw [← hp]; exact hp1
      simp only [srcProcessLine, eq_false_of_ne_true h1, Bool.false_eq_true, if_false, hp1, hp2]
      exact projEq_srcLineCore ⟨hp, hc2, hd⟩ sf n m raw
    | some p =>
      have hp2 : s2.prepend = some p := by rw [← hp]; exact hp1
      simp only [srcProcessLine, eq_false_of_ne_true h1, Bool.false_eq_true, if_false, hp1, hp2]
      apply projEq_srcLineCore _ sf n m
      exact ⟨rfl, hc2, hd⟩

theorem projEq_srcRunLines {s1 s2 : SrcState} (h : projEq s1 s2) (sf : Str) (n m : Nat)
    (ls : List Str) : projEq (srcRunLines sf n s1 ls) (srcRunLines sf m s2 ls) := by
  induction ls generalizing s1 s2 n m with
  | nil => exact h
  | cons l t ih =>
    exact ih (projEq_srcProcessLine h sf (n + 1) (m + 1) (l ++ ['\n'])) (n + 1) (m + 1)

theorem projEq_srcParseFiles {s1 s2 : SrcState} (h : projEq s1 s2)
    (fs : List (Str × List Str)) : projEq (srcParseFiles s1 fs) (srcParseFiles s2 fs) := by
  induction fs generalizing s1 s2 with
  | nil => exact h
  | cons f t ih =>
    exact ih (projEq_srcRunLines h f.1 0 0 f.2)

theorem srcRunLines_append (sf : Str) (n : Nat) (st : SrcState) (xs ys : List Str) :
    srcRunLines sf n st (xs ++ ys) =
      srcRunLines sf (n + xs.length) (srcRunLines sf n st xs) ys := by
  induction xs generalizing n st with
  | nil => simp [srcRunLines]
  | cons x t ih =>
    simp only [List.cons_append, srcRunLines, List.length_cons, List.append_eq]
    rw [ih]
    congr 1
    omega

theorem srcParseFiles_append (st : SrcState) (fs gs : List (Str × List Str)) :
    srcParseFiles st (fs ++ gs) = srcParseFiles (srcParseFiles st fs) gs := by
  induction fs generalizing st with
  | nil => rfl
  | cons f t ih => simp only [List.cons_append, srcParseFiles, List.append_eq, ih]

theorem srcProcessLine_broken {st : SrcState} (hp : st.prepend = none) (sf : Str) (n : Nat)
    {raw : Str} (hc : isCommentLine raw = false) (hm : containsL vuidMark raw = true)
    (hb : brokenTail raw = true) :
    srcProcessLine sf n st raw = { st with prepend := some raw } := by
  unfold srcProcessLine srcLineCore
  simp [hc, hp, hm, hb]

theorem srcProcessLine_extract {st : SrcState} (hp : st.prepend = none) (sf : Str) (n : Nat)
    {raw : Str} (hc : isCommentLine raw = false) (hb : brokenTail raw = false) :
    srcProcessLine sf n st raw =
      (if containsL vuidMark raw then (extractVuids raw).foldl (insertVuid sf n) st else st) := by
  unfold srcProcessLine srcLineCore
  cases hm : containsL vuidMark raw with
  | true => simp [hc, hp, hm, hb]
  | false => simp [hc, hp, hm]

theorem srcProcessLine_join {st : SrcState} {p : Str} (hp : st.prepend = some p) (sf : Str)
    (n : Nat) {raw : Str} (hc : isCommentLine raw = false) :
    srcProcessLine sf n st raw =
      srcLineCore sf n { st with prepend := none }
        (sliceToNeg2 p ++ lstripQuotes (dropLeadingWS raw)) := by
  unfold srcProcessLine
  simp [hc, hp]

theorem lookupA_append_self {c : List (Str × α)} {v : Str} (h : lookupA v c = none) (x : α) :
    lookupA v (c ++ [(v, x)]) = some x := by
  induction c with
  | nil => simp [lookupA]
  | cons e t ih =>
    obtain ⟨k, w⟩ := e
    simp only [lookupA] at h
    by_cases he : k = v
    · rw [if_pos he] at h
      exact absurd h (by simp)
    · rw [if_neg he] at h
      simp only [List.cons_append, lookupA, if_neg he]
      exact ih h

theorem lookupA_map_bump {c : List (Str × VuidInfo)} {v : Str} {i : VuidInfo}
    (h : lookupA v c = some i) (sf : Str) (n : Nat) :
    lookupA v (c.map (bumpEntry sf n v)) = some ⟨i.count + 1, i.file_line ++ [(sf, n)]⟩ := by
  induction c with
  | nil => simp [lookupA] at h
  | cons e t ih =>
    obtain ⟨k, w⟩ := e
    simp only [lookupA] at h
    by_cases hk : k = v
    · subst hk
      rw [if_pos rfl] at h
      injection h with h
      subst h
      rw [List.map_cons, bumpEntry_same]
      simp [lookupA]
    · rw [if_neg hk] at h
      rw [List.map_cons, bumpEntry_other sf n hk]
      simp only [lookupA, if_neg hk]
      exact ih h

theorem countOf_insertVuid_self (sf : Str) (n : Nat) (st : SrcState) (v : Str) :
    countOf v (insertVuid sf n st v).vuid_count_dict = countOf v st.vuid_count_dict + 1 := by
  unfold insertVuid countOf
  cases hl : lookupA v st.vuid_count_dict with
  | none => simp [hl, lookupA_append_self hl]
  | some i => simp [hl, lookupA_map_bump hl sf n]

/-! ## Claim C10: count equals number of recorded locations -/

/-- The invariant: every entry's count equals the length of its recorded
location list, and both are at least 1. -/
def countInv (counts : List (Str × VuidInfo)) : Prop :=
  ∀ e ∈ counts, e.2.count = e.2.file_line.length ∧ 1 ≤ e.2.count

theorem countInv_insertVuid {st : SrcState} (h : countInv st.vuid_count_dict) (sf : Str)
    (n : Nat) (v : Str) : countInv (insertVuid sf n st v).vuid_count_dict := by
  unfold insertVuid
  cases hl : lookupA v st.vuid_count_dict with
  | none =>
    intro e he
    rcases List.mem_append.mp he with h1 | h2
    · exact h e h1
    · simp only [List.mem_singleton] at h2
      subst h2
      simp
  | some i =>
    intro e he
    simp only [List.mem_map] at he
    obtain ⟨e0, he0, rfl⟩ := he
    obtain ⟨k, w⟩ := e0
    have h0 := h (k, w) he0
    by_cases hk : k = v
    · subst hk
      rw [bumpEntry_same]
      simp only at h0 ⊢
      constructor
      · simp [List.length_append]
        omega
      · omega
    · rw [bumpEntry_other sf n hk]
      exact h0

theorem countInv_foldl {st : SrcState} (h : countInv st.vuid_count_dict) (sf : Str)
    (n : Nat) (l : List Str) : countInv ((l.foldl (insertVuid sf n) st).vuid_count_dict) := by
  induction l generalizing st with
  | nil => exact h
  | cons v t ih => exact ih (countInv_insertVuid h sf n v)

theorem countInv_srcLineCore {st : SrcState} (h : countInv st.vuid_count_dict) (sf : Str)
    (n : Nat) (line : Str) : countInv (srcLineCore sf n st line).vuid_count_dict := by
  unfold srcLineCore
  by_cases h1 : containsL vuidMark line = true
  · by_cases h2 : brokenTail line = true
    · simp only [h1, h2, if_true]
      exact h
    · simp only [h1, if_true, eq_false_of_ne_true h2, Bool.false_eq_true, if_false]
      exact countInv_foldl h sf n _
  · simp only [eq_false_of_ne_true h1, Bool.false_eq_true, if_false]
    exact h

theorem countInv_srcProcessLine {st : SrcState} (h : countInv st.vuid_count_dict) (sf : Str)
    (n : Nat) (raw : Str) : countInv (srcProcessLine sf n st raw).vuid_count_dict := by
  unfold srcProcessLine
  by_cases h1 : isCommentLine raw = true
  · simp only [h1, if_true]
    exact h
  · simp only [eq_false_of_ne_true h1, Bool.false_eq_true, if_false]
    cases hp : st.prepend with
    | some p =>
      exact @countInv_srcLineCore { st with prepend := none } h sf n
        (sliceToNeg2 p ++ lstripQuotes (dropLeadingWS raw))
    | none => exact countInv_srcLineCore h sf n raw

theorem countInv_srcRunLines {st : SrcState} (h : countInv st.vuid_count_dict) (sf : Str)
    (n : Nat) (ls : List Str) : countInv ((srcRunLines sf n st ls).vuid_count_dict) := by
  induction ls generalizing st n with
  | nil => exact h
  | cons l t ih => exact ih (countInv_srcProcessLine h sf (n + 1) (l ++ ['\n'])) (n + 1)

theorem countInv_srcParseFiles {st : SrcState} (h : countInv st.vuid_count_dict)
    (fs : List (Str × List Str)) : countInv ((srcParseFiles st fs).vuid_count_dict) := by
  induction fs generalizing st with
  | nil => exact h
  | cons f t ih => exact ih (countInv_srcRunLines h f.1 0 f.2)

/-- C10: after `ValidationSource.parse` completes on any file list, every
identifier entry of the occurrence map stores a count equal to the length
of its recorded `(file, line)` location list, and both are at least 1;
moreover every per-occurrence update (`insertVuid`) preserves this
invariant. -/
theorem c10_occurrence_count_invariant :
    (∀ files : List (Str × List Str),
        countInv (ValidationSource.parse files).vuid_count_dict) ∧
    (∀ (sf : Str) (n : Nat) (st : SrcState) (v : Str), countInv st.vuid_count_dict →
        countInv (insertVuid sf n st v).vuid_count_dict) := by
  constructor
  · intro files
    apply countInv_srcParseFiles
    intro e he
    simp at he
  · intro sf n st v h
    exact countInv_insertVuid h sf n v

/-- Witness for C10 at a concrete scanned file and a concrete update. -/
theorem c10_occurrence_count_invariant_witness :
    countInv (ValidationSource.parse
        [(lit "f", [lit "x \"VUID-a-b-1\" y"])]).vuid_count_dict ∧
    countInv (insertVuid (lit "f") 1 ⟨none, [], 0⟩ (lit "v")).vuid_count_dict :=
  ⟨c10_occurrence_count_invariant.1 _,
   c10_occurrence_count_invariant.2 (lit "f") 1 ⟨none, [], 0⟩ (lit "v")
     (fun e he => absurd he (List.not_mem_nil e))⟩

/-! ## Claim C8: the duplicate allow-list never matches -/

/-- A source line using the allow-listed identifier
`VUID-vkDestroyInstance-instance-00629`. -/
def dupLine629 : Str := lit "x \"VUID-vkDestroyInstance-instance-00629\" y"

/-- C8 (code bug evidence): scanning a file that uses the allow-listed
identifier `VUID-vkDestroyInstance-instance-00629` on two lines makes the
`multiple_uses` advisory fire anyway.  The occurrence map's key is the
token stripped of quotes, while every `duplicate_exceptions` entry keeps
its surrounding quotes, so the quoted entry is never a key of the map and
the membership test in `main` never suppresses anything — contradicting
the script's own comment that duplicates of these identifiers must not be
warned about. -/
theorem c8_allowlist_never_suppresses :
    multipleUsesFlag (ValidationSource.parse
        [(lit "f", [dupLine629, dupLine629])]).vuid_count_dict = true ∧
    (lit "\"VUID-vkDestroyInstance-instance-00629\"") ∈ duplicate_exceptions ∧
    lookupA (lit "\"VUID-vkDestroyInstance-instance-00629\"")
      (ValidationSource.parse [(lit "f", [dupLine629, dupLine629])]).vuid_count_dict = none ∧
    countOf (lit "VUID-vkDestroyInstance-instance-00629")
      (ValidationSource.parse [(lit "f", [dupLine629, dupLine629])]).vuid_count_dict = 2 := by
  refine ⟨by decide, by decide, by decide, by decide⟩

/-! ## Claim C9: fatal failure modes of the specification reader -/

/-- C9: `ValidationJSON.read` fails (aborting the run with a non-zero
exit status and no partial result) exactly when the specification file is
absent or the parsed document is empty; on every non-empty parseable
document it succeeds and returns the extracted identifiers. -/
theorem c9_spec_index_fatal_loads :
    (∀ f : Option Json, (∃ e, ValidationJSON.read f = .error e) ↔
        f = none ∨ ∃ d, f = some d ∧ docLen d = 0) ∧
    (∀ d : Json, docLen d ≠ 0 →
        ValidationJSON.read (some d) = .ok (ValidationJSON.ExtractVUIDs d)) := by
  constructor
  · intro f
    constructor
    · rintro ⟨e, he⟩
      cases f with
      | none => exact Or.inl rfl
      | some d =>
        right
        refine ⟨d, rfl, ?_⟩
        by_cases hd : docLen d = 0
        · exact hd
        · simp [ValidationJSON.read, hd] at he
    · intro h
      rcases h with h | ⟨d, rfl, hd⟩
      · subst h
        exact ⟨.attributeError, rfl⟩
      · exact ⟨.emptyDocExit, by simp [ValidationJSON.read, hd]⟩
  · intro d hd
    simp [ValidationJSON.read, hd]

/-- Witness for C9: a missing file fails, and a one-entry document
loads successfully. -/
theorem c9_spec_index_fatal_loads_witness :
    (∃ e, ValidationJSON.read none = .error e) ∧
    docLen (Json.obj [("vuid", Json.str "V")]) ≠ 0 ∧
    ValidationJSON.read (some (Json.obj [("vuid", Json.str "V")])) =
      .ok (ValidationJSON.ExtractVUIDs (Json.obj [("vuid", Json.str "V")])) :=
  ⟨(c9_spec_index_fatal_loads.1 none).mpr (Or.inl rfl),
   by simp [docLen],
   c9_spec_index_fatal_loads.2 (Json.obj [("vuid", Json.str "V")]) (by simp [docLen])⟩

/-! ## Claim C3: exit-status characterization -/

theorem sdiff_union_empty_iff (s t : Finset Str) : (s \ t) ∪ (t \ s) = ∅ ↔ s = t := by
  rw [Finset.union_eq_empty, Finset.sdiff_eq_empty_iff_subset,
    Finset.sdiff_eq_empty_iff_subset, ← Finset.Subset.antisymm_iff]

theorem foldl_append_filter_nil (d t : List (Str × List Str)) (init : List Str) :
    d.foldl (fun acc e => acc ++ e.2.filter (fun x => lookupA x t = none)) init = [] ↔
      init = [] ∧ ∀ e ∈ d, ∀ x ∈ e.2, lookupA x t ≠ none := by
  induction d generalizing init with
  | nil => simp
  | cons e d2 ih =>
    simp only [List.foldl_cons, ih, List.append_eq_nil, List.filter_eq_nil_iff]
    constructor
    · rintro ⟨⟨h1, h2⟩, h3⟩
      refine ⟨h1, ?_⟩
      intro e2 he2 x hx
      rcases List.mem_cons.mp he2 with he3 | he3
      · subst he3; simpa using h2 x hx
      · exact h3 e2 he3 x hx
    · rintro ⟨h1, h2⟩
      refine ⟨⟨h1, ?_⟩, ?_⟩
      · intro x hx
        simpa using h2 e (by simp) x hx
      · intro e2 he2 x hx
        exact h2 e2 (by simp [he2]) x hx

/-- The sequential `result = 1` overwrites of `main` as one nested
conditional: the final result is 0 exactly when the first condition is
off and the three later gates all pass. -/
theorem resultChain (c1 c2 c3 c4 : Prop) [Decidable c1] [Decidable c2] [Decidable c3]
    [Decidable c4] :
    ((if c4 then (if c3 then (if c2 then (if c1 then 1 else 0) else 1) else 1) else 1 : Nat)
        = 0 ↔ ¬c1 ∧ c2 ∧ c3 ∧ c4) ∧
    ((if c4 then (if c3 then (if c2 then (if c1 then 1 else 0) else 1) else 1) else 1 : Nat)
        = 0 ∨
     (if c4 then (if c3 then (if c2 then (if c1 then 1 else 0) else 1) else 1) else 1 : Nat)
        = 1) := by
  split_ifs <;> simp_all

theorem mainResult_eq_ite (db_invalid db_keys json_vuids db_impl : Finset Str)
    (vuid_count_dict : List (Str × VuidInfo))
    (db_vuid_to_tests test_to_errors : List (Str × List Str)) :
    mainResult db_invalid db_keys json_vuids db_impl vuid_count_dict db_vuid_to_tests
        test_to_errors =
    (if badTestnames db_vuid_to_tests test_to_errors = [] then
      (if (db_impl \ (vuid_count_dict.map Prod.fst).toFinset) = ∅ ∧
          ((vuid_count_dict.map Prod.fst).toFinset \ db_impl) = ∅ then
        (if db_keys.card = json_vuids.card ∧ json_vuids \ db_keys = ∅ ∧
            db_keys \ json_vuids = ∅ then
          (if 0 < db_invalid.card then 1 else 0)
        else 1)
      else 1)
    else 1) := rfl

theorem dbSpecGate_iff (db_keys json_vuids : Finset Str) :
    (db_keys.card = json_vuids.card ∧ json_vuids \ db_keys = ∅ ∧
      db_keys \ json_vuids = ∅) ↔
      ¬((json_vuids \ db_keys) ∪ (db_keys \ json_vuids) ≠ ∅) := by
  rw [not_not, sdiff_union_empty_iff]
  constructor
  · rintro ⟨_, hx, hy⟩
    rw [Finset.sdiff_eq_empty_iff_subset] at hx hy
    exact Finset.Subset.antisymm hx hy
  · rintro h
    subst h
    simp

theorem badTestnames_nil_iff (db_vuid_to_tests test_to_errors : List (Str × List Str)) :
    (badTestnames db_vuid_to_tests test_to_errors = []) ↔
      ¬(∃ e ∈ db_vuid_to_tests, ∃ x ∈ e.2, lookupA x test_to_errors = none) := by
  rw [badTestnames, foldl_append_filter_nil]
  push_neg
  simp

/-- C3: a run that reaches the reconciliation pass exits with status 0 if
and only if none of the failure conditions fired: non-empty invalid
implemented-flag set, non-empty symmetric difference between the spec
identifier set and the database key set, non-empty symmetric difference
between the database implemented set and the source occurrence key set,
or a database-referenced test name absent from the test map; otherwise
the status is 1.  The advisory data (`multiple_uses`, computed from the
occurrence counts and `duplicate_exceptions`) does not occur in the
characterization, so advisories never change the exit status. -/
theorem c3_exit_status (db_invalid db_keys json_vuids db_impl : Finset Str)
    (vuid_count_dict : List (Str × VuidInfo))
    (db_vuid_to_tests test_to_errors : List (Str × List Str)) :
    (mainResult db_invalid db_keys json_vuids db_impl vuid_count_dict db_vuid_to_tests
        test_to_errors = 0 ↔
      ¬(db_invalid ≠ ∅ ∨
        (json_vuids \ db_keys) ∪ (db_keys \ json_vuids) ≠ ∅ ∨
        (db_impl \ (vuid_count_dict.map Prod.fst).toFinset) ∪
          ((vuid_count_dict.map Prod.fst).toFinset \ db_impl) ≠ ∅ ∨
        ∃ e ∈ db_vuid_to_tests, ∃ x ∈ e.2, lookupA x test_to_errors = none)) ∧
    (mainResult db_invalid db_keys json_vuids db_impl vuid_count_dict db_vuid_to_tests
        test_to_errors = 0 ∨
      mainResult db_invalid db_keys json_vuids db_impl vuid_count_dict db_vuid_to_tests
        test_to_errors = 1) := by
  have e1 : (0 < db_invalid.card) ↔ db_invalid ≠ ∅ := by
    rw [Finset.card_pos, Finset.nonempty_iff_ne_empty]
  have e2 := dbSpecGate_iff db_keys json_vuids
  have e3 : ((db_impl \ (vuid_count_dict.map Prod.fst).toFinset) = ∅ ∧
      ((vuid_count_dict.map Prod.fst).toFinset \ db_impl) = ∅) ↔
      ¬((db_impl \ (vuid_count_dict.map Prod.fst).toFinset) ∪
        ((vuid_count_dict.map Prod.fst).toFinset \ db_impl) ≠ ∅) := by
    rw [not_not, Finset.union_eq_empty]
  have e4 := badTestnames_nil_iff db_vuid_to_tests test_to_errors
  have hr := resultChain (0 < db_invalid.card)
    (db_keys.card = json_vuids.card ∧ json_vuids \ db_keys = ∅ ∧ db_keys \ json_vuids = ∅)
    ((db_impl \ (vuid_count_dict.map Prod.fst).toFinset) = ∅ ∧
      ((vuid_count_dict.map Prod.fst).toFinset \ db_impl) = ∅)
    (badTestnames db_vuid_to_tests test_to_errors = [])
  rw [mainResult_eq_ite]
  refine ⟨hr.1.trans ?_, hr.2⟩
  rw [not_or, not_or, not_or, e1, e2, e3, e4]

/-- Witness for C3: a fully consistent empty run exits 0, and a run with
an invalid implemented flag exits 1. -/
theorem c3_exit_status_witness :
    mainResult ∅ ∅ ∅ ∅ [] [] [] = 0 ∧
    mainResult {lit "v"} ∅ ∅ ∅ [] [] [] = 1 := by
  constructor
  · exact (c3_exit_status ∅ ∅ ∅ ∅ [] [] []).1.mpr (by simp)
  · rcases (c3_exit_status {lit "v"} ∅ ∅ ∅ [] [] []).2 with h | h
    · exfalso
      have := (c3_exit_status {lit "v"} ∅ ∅ ∅ [] [] []).1.mp h
      simp at this
    · exact h

/-! ## Claim C4: extraction completeness of the specification walker -/

/-- A document with a `"vuid"` entry inside an array nested directly
within an array. -/
def cexNestedArr : Json := .obj [("a", .arr [.arr [.obj [("vuid", .str "X")]]])]

/-- A document whose root is an array. -/
def cexTopArr : Json := .arr [.obj [("vuid", .str "Y")]]

/-- A document with a `"vuid"` entry nested inside a `"vuid"` value. -/
def cexVuidInVuid : Json := .obj [("vuid", .obj [("vuid", .str "Z")])]

/-- C4 counterexample: `ExtractVUIDs` misses `"vuid"` entries inside
arrays nested within arrays (a list element that is itself a list has no
`items` attribute, so the recursive call yields nothing), misses
everything under an array root, and does not recurse into the value of a
`"vuid"` entry — while the claim's full-depth extraction finds them.  So
the produced identifier set is not always the set of all `"vuid"` values. -/
theorem c4_extract_counterexample :
    ValidationJSON.ExtractVUIDs cexNestedArr = [] ∧
    specVuidValues cexNestedArr = [Json.str "X"] ∧
    ValidationJSON.ExtractVUIDs cexTopArr = [] ∧
    specVuidValues cexTopArr = [Json.str "Y"] ∧
    ValidationJSON.ExtractVUIDs cexVuidInVuid = [Json.obj [("vuid", Json.str "Z")]] ∧
    specVuidValues cexVuidInVuid = [Json.obj [("vuid", Json.str "Z")], Json.str "Z"] :=
  ⟨rfl, rfl, rfl, rfl, rfl, rfl⟩

theorem extract_eq_spec_onGood (n : Nat) :
    (∀ kvs : List (String × Json), sizeOf kvs ≤ n → goodEntries kvs = true →
      extractEntries kvs = specVuidEntries kvs) ∧
    (∀ l : List Json, sizeOf l ≤ n → goodElems l = true →
      extractElems l = specVuidElems l) := by
  induction n using Nat.strong_induction_on with
  | _ n ih =>
    constructor
    · intro kvs hsz hgood
      cases kvs with
      | nil => rfl
      | cons e rest =>
        obtain ⟨k, v⟩ := e
        have hszr : sizeOf rest < n := by
          have : sizeOf rest < sizeOf ((k, v) :: rest) := by
            simp only [List.cons.sizeOf_spec]
            omega
          omega
        simp only [goodEntries, Bool.and_eq_true] at hgood
        obtain ⟨hg1, hg2⟩ := hgood
        have htail := (ih (sizeOf rest) hszr).1 rest le_rfl hg2
        by_cases hk : k = "vuid"
        · rw [if_pos hk] at hg1
          have hnil : specVuidValues v = [] := List.isEmpty_iff.mp hg1
          cases v <;>
            simp [extractEntries, specVuidEntries, if_pos hk, htail, hnil]
        · rw [if_neg hk] at hg1
          cases v with
          | str s =>
            simp only [extractEntries, specVuidEntries, if_neg hk, htail, specVuidValues]
            simp
          | obj kvs2 =>
            have hsz2 : sizeOf kvs2 < n := by
              have : sizeOf kvs2 < sizeOf ((k, Json.obj kvs2) :: rest) := by
                simp only [List.cons.sizeOf_spec, Prod.mk.sizeOf_spec, Json.obj.sizeOf_spec]
                omega
              omega
            have hv := (ih (sizeOf kvs2) hsz2).1 kvs2 le_rfl (by simpa [goodJson] using hg1)
            simp only [extractEntries, specVuidEntries, if_neg hk, htail, specVuidValues, hv]
            simp
          | arr l =>
            have hsz2 : sizeOf l < n := by
              have : sizeOf l < sizeOf ((k, Json.arr l) :: rest) := by
                simp only [List.cons.sizeOf_spec, Prod.mk.sizeOf_spec, Json.arr.sizeOf_spec]
                omega
              omega
            have hv := (ih (sizeOf l) hsz2).2 l le_rfl (by simpa [goodJson] using hg1)
            simp only [extractEntries, specVuidEntries, if_neg hk, htail, specVuidValues, hv]
            simp
    · intro l hsz hgood
      cases l with
      | nil => rfl
      | cons j rest =>
        have hszr : sizeOf rest < n := by
          have : sizeOf rest < sizeOf (j :: rest) := by
            simp only [List.cons.sizeOf_spec]
            omega
          omega
        simp only [goodElems, Bool.and_eq_true] at hgood
        obtain ⟨hg1, hg2⟩ := hgood
        have htail := (ih (sizeOf rest) hszr).2 rest le_rfl hg2
        cases j with
        | str s =>
          simp only [extractElems, specVuidElems, htail, ValidationJSON.ExtractVUIDs,
            specVuidValues]
        | arr l2 => simp at hg1
        | obj kvs2 =>
          have hsz2 : sizeOf kvs2 < n := by
            have : sizeOf kvs2 < sizeOf (Json.obj kvs2 :: rest) := by
              simp only [List.cons.sizeOf_spec, Json.obj.sizeOf_spec]
              omega
            omega
          have hv := (ih (sizeOf kvs2) hsz2).1 kvs2 le_rfl (by simpa [goodJson] using hg1)
          simp only [extractElems, specVuidElems, htail, ValidationJSON.ExtractVUIDs,
            specVuidValues, hv]

/-- C4 amended: on documents whose root is a mapping, in which no array
occurs directly inside an array, and in which the value of every
`"vuid"` entry contains no further `"vuid"` entries, `ExtractVUIDs`
produces exactly the values of the `"vuid"` entries (in traversal order,
so in particular the deduplicated identifier sets coincide). -/
theorem c4_extract_complete_on_good (kvs : List (String × Json))
    (h : goodJson (Json.obj kvs) = true) :
    ValidationJSON.ExtractVUIDs (Json.obj kvs) = specVuidValues (Json.obj kvs) := by
  have hm := (extract_eq_spec_onGood (sizeOf kvs)).1 kvs le_rfl (by simpa [goodJson] using h)
  simpa [ValidationJSON.ExtractVUIDs, specVuidValues] using hm

/-- Witness for the amended C4 at a concrete two-entry document with a
nested mapping and an array of mappings. -/
theorem c4_extract_complete_on_good_witness :
    goodJson (Json.obj [("a", .obj [("vuid", .str "X")]),
        ("b", .arr [.obj [("vuid", .str "Y")]])]) = true ∧
    ValidationJSON.ExtractVUIDs (Json.obj [("a", .obj [("vuid", .str "X")]),
        ("b", .arr [.obj [("vuid", .str "Y")]])]) =
      specVuidValues (Json.obj [("a", .obj [("vuid", .str "X")]),
        ("b", .arr [.obj [("vuid", .str "Y")]])]) :=
  ⟨rfl, c4_extract_complete_on_good _ rfl⟩

/-! ## Claim C5: malformed database lines -/

theorem setEntry_hit {k2 k : Str} (h : k2 = k) (v : α) (w : α) :
    setEntry k v (k2, w) = (k, v) := by
  simp [setEntry, h]

theorem setEntry_miss {k2 k : Str} (h : ¬ k2 = k) (v : α) (w : α) :
    setEntry k v (k2, w) = (k2, w) := by
  simp [setEntry, h]

theorem lookupA_dictSet (d : List (Str × α)) (k : Str) (v : α) :
    lookupA k (dictSet d k v) = some v := by
  unfold dictSet
  cases hl : (lookupA k d).isSome with
  | false =>
    simp only [Bool.false_eq_true, if_false]
    have hnone : lookupA k d = none := by
      cases hx : lookupA k d with
      | none => rfl
      | some w => rw [hx] at hl; simp at hl
    exact lookupA_append_self hnone v
  | true =>
    simp only [if_true]
    induction d with
    | nil => simp [lookupA] at hl
    | cons e t ih =>
      obtain ⟨k2, w⟩ := e
      by_cases hk : k2 = k
      · subst hk
        rw [List.map_cons, setEntry_hit rfl]
        simp [lookupA]
      · simp only [lookupA, if_neg hk] at hl
        rw [List.map_cons, setEntry_miss hk]
        simp only [lookupA, if_neg hk]
        exact ih hl

theorem dbRunLines_cons (st : DbState) (l : Str) (rest : List Str) :
    dbRunLines st (l :: rest) =
      (match dbProcessLine st (l ++ ['\n']) with
        | .error e => .error e
        | .ok st2 => dbRunLines st2 rest) := rfl

theorem dbProcessFields_db_dict (st : DbState) (e0 e1 e2 e3 e4 e5 e6 e7 : Str) :
    (dbProcessFields st e0 e1 e2 e3 e4 e5 e6 e7).db_dict =
      dictSet st.db_dict e4 ⟨e0, e1, e2, e3, e5, e6, e7⟩ := by
  simp only [dbProcessFields]
  split_ifs <;> rfl

theorem dbProcessFields_format_errors (st : DbState) (e0 e1 e2 e3 e4 e5 e6 e7 : Str) :
    (dbProcessFields st e0 e1 e2 e3 e4 e5 e6 e7).format_errors = st.format_errors := by
  simp only [dbProcessFields]
  split_ifs <;> rfl

/-- C5 counterexample: a database file whose first line has only two
fields makes `ValidationDatabase.read` abort (the `db_line[2]` access
raises an IndexError), so the remaining well-formed line is never
parsed — refuting "skips that line and continues parsing the remaining
lines without aborting". -/
theorem c5_db_counterexample :
    ValidationDatabase.read
      [lit "a~^~b", lit "e~^~Y~^~t~^~api~^~v~^~core~^~msg~^~note"] = .error () := rfl

/-- C5 amended: a non-empty, non-comment line that does not split into
exactly 8 fields is reported as a format error, but the line is not
skipped: with fewer than 8 fields the load aborts at the field accesses
and the remaining lines are never parsed; with more than 8 fields the
line is processed using its first 8 fields (a record keyed by field 4 is
inserted) and parsing continues with the remaining lines. -/
theorem c5_db_malformed_line (st : DbState) (l : Str) (rest : List Str)
    (hne : decide (pyStrip (l ++ ['\n']) = []) = false)
    (hnc : startsWithL ['#'] (pyStrip (l ++ ['\n'])) = false) :
    ((pySplitOnSub dbDelimiter (pyStrip (l ++ ['\n']))).length < 8 →
      dbRunLines st (l :: rest) = .error ()) ∧
    (8 < (pySplitOnSub dbDelimiter (pyStrip (l ++ ['\n']))).length →
      ∃ st2, dbProcessLine st (l ++ ['\n']) = .ok st2 ∧
        st2.format_errors = st.format_errors ++ [pyStrip (l ++ ['\n'])] ∧
        lookupA ((pySplitOnSub dbDelimiter (pyStrip (l ++ ['\n']))).getD 4 [])
            st2.db_dict =
          some ⟨(pySplitOnSub dbDelimiter (pyStrip (l ++ ['\n']))).getD 0 [],
            (pySplitOnSub dbDelimiter (pyStrip (l ++ ['\n']))).getD 1 [],
            (pySplitOnSub dbDelimiter (pyStrip (l ++ ['\n']))).getD 2 [],
            (pySplitOnSub dbDelimiter (pyStrip (l ++ ['\n']))).getD 3 [],
            (pySplitOnSub dbDelimiter (pyStrip (l ++ ['\n']))).getD 5 [],
            (pySplitOnSub dbDelimiter (pyStrip (l ++ ['\n']))).getD 6 [],
            (pySplitOnSub dbDelimiter (pyStrip (l ++ ['\n']))).getD 7 []⟩ ∧
        dbRunLines st (l :: rest) = dbRunLines st2 rest) := by
  have hcond : (startsWithL ['#'] (pyStrip (l ++ ['\n'])) ||
      decide (pyStrip (l ++ ['\n']) = [])) = false := by
    rw [hne, hnc]
    rfl
  constructor
  · intro hlen
    have hstep : dbProcessLine st (l ++ ['\n']) = .error () := by
      simp only [dbProcessLine]
      rw [hcond]
      simp only [Bool.false_eq_true, if_false]
      rw [if_neg (show ¬ 8 ≤ (pySplitOnSub dbDelimiter (pyStrip (l ++ ['\n']))).length from
        by omega)]
    rw [dbRunLines_cons, hstep]
  · intro hlen
    have hne8 : ¬ (pySplitOnSub dbDelimiter (pyStrip (l ++ ['\n']))).length = 8 := by omega
    have hge8 : 8 ≤ (pySplitOnSub dbDelimiter (pyStrip (l ++ ['\n']))).length := by omega
    have hstep : dbProcessLine st (l ++ ['\n']) =
        .ok (dbProcessFields
          { st with format_errors := st.format_errors ++ [pyStrip (l ++ ['\n'])] }
          ((pySplitOnSub dbDelimiter (pyStrip (l ++ ['\n']))).getD 0 [])
          ((pySplitOnSub dbDelimiter (pyStrip (l ++ ['\n']))).getD 1 [])
          ((pySplitOnSub dbDelimiter (pyStrip (l ++ ['\n']))).getD 2 [])
          ((pySplitOnSub dbDelimiter (pyStrip (l ++ ['\n']))).getD 3 [])
          ((pySplitOnSub dbDelimiter (pyStrip (l ++ ['\n']))).getD 4 [])
          ((pySplitOnSub dbDelimiter (pyStrip (l ++ ['\n']))).getD 5 [])
          ((pySplitOnSub dbDelimiter (pyStrip (l ++ ['\n']))).getD 6 [])
          ((pySplitOnSub dbDelimiter (pyStrip (l ++ ['\n']))).getD 7 [])) := by
      simp only [dbProcessLine]
      rw [hcond]
      simp only [Bool.false_eq_true, if_false]
      rw [if_neg hne8, if_pos hge8]
    refine ⟨_, hstep, ?_, ?_, ?_⟩
    · rw [dbProcessFields_format_errors]
    · rw [dbProcessFields_db_dict]
      exact lookupA_dictSet _ _ _
    · rw [dbRunLines_cons, hstep]

/-- Witness for the amended C5: a 2-field line aborts the run, and a
9-field line logs a format error, inserts the record, and continues. -/
theorem c5_db_malformed_line_witness :
    ((pySplitOnSub dbDelimiter (pyStrip (lit "a~^~b" ++ ['\n']))).length < 8 ∧
      dbRunLines dbInit [lit "a~^~b"] = .error ()) ∧
    (8 < (pySplitOnSub dbDelimiter
        (pyStrip (lit "e~^~Y~^~t~^~api~^~v~^~core~^~msg~^~note~^~extra" ++ ['\n']))).length ∧
      ∃ st2, dbProcessLine dbInit
          (lit "e~^~Y~^~t~^~api~^~v~^~core~^~msg~^~note~^~extra" ++ ['\n']) = .ok st2 ∧
        st2.format_errors = dbInit.format_errors ++
          [pyStrip (lit "e~^~Y~^~t~^~api~^~v~^~core~^~msg~^~note~^~extra" ++ ['\n'])] ∧
        lookupA ((pySplitOnSub dbDelimiter (pyStrip
            (lit "e~^~Y~^~t~^~api~^~v~^~core~^~msg~^~note~^~extra" ++ ['\n']))).getD 4 [])
            st2.db_dict =
          some ⟨lit "e", lit "Y", lit "t", lit "api", lit "core", lit "msg", lit "note"⟩ ∧
        dbRunLines dbInit [lit "e~^~Y~^~t~^~api~^~v~^~core~^~msg~^~note~^~extra"] =
          dbRunLines st2 []) := by
  constructor
  · exact ⟨by decide, ((c5_db_malformed_line dbInit (lit "a~^~b") []
      (by decide) (by decide)).1 (by decide))⟩
  · refine ⟨by decide, ?_⟩
    have h := (c5_db_malformed_line dbInit
      (lit "e~^~Y~^~t~^~api~^~v~^~core~^~msg~^~note~^~extra") []
      (by decide) (by decide)).2 (by decide)
    obtain ⟨st2, h1, h2, h3, h4⟩ := h
    exact ⟨st2, h1, h2, by rw [h3]; rfl, h4⟩

/-! ## Claims C6 and C7: the test-source scanner -/

theorem anyTrigger_append_nl (p : Str) : anyTrigger (p ++ ['\n']) = anyTrigger p := by
  simp only [anyTrigger, testTriggers, List.any_cons, List.any_nil]
  rw [containsL_append_notmem (by decide) (by decide) p,
    containsL_append_notmem (by decide) (by decide) p,
    containsL_append_notmem (by decide) (by decide) p]

theorem containsL_vuidMark_append_nl (p : Str) :
    containsL vuidMark (p ++ ['\n']) = containsL vuidMark p :=
  containsL_append_notmem (by decide) (by decide) p

theorem grabStage_off {st : TestState} (hg : st.grab_next_line = false) :
    grabStage st = st := by
  simp [grabStage, hg]

theorem vuidAppendStage_skip {st : TestState} {line : Str}
    (hm : containsL vuidMark line = false) : vuidAppendStage st line = .ok st := by
  simp [vuidAppendStage, hm]

theorem vuidAppendStage_error {st : TestState}
    (hmap : lookupA st.testname st.test_to_errors = none) {line : Str}
    (hm : containsL vuidMark line = true)
    (hne : (pySplitWs line).filter (containsL vuidMark ·) ≠ []) :
    vuidAppendStage st line = .error () := by
  unfold vuidAppendStage
  rw [hm]
  simp only [if_true]
  cases hf : (pySplitWs line).filter (containsL vuidMark ·) with
  | nil => exact absurd hf hne
  | cons t ts =>
    simp only [List.foldlM_cons, hmap]
    rfl

/-- A line with no trigger and no identifier marker leaves an idle
parser state (no pending name, no pending broken line) unchanged. -/
theorem testProcessLine_inert {st : TestState} (hg : st.grab_next_line = false)
    (hp : st.prepend = none) {p : Str} (hm : containsL vuidMark p = false)
    (ht : anyTrigger p = false) :
    testProcessLine st (p ++ ['\n']) = .ok st := by
  obtain ⟨g, tn, pp, m⟩ := st
  simp only at hg hp
  subst hg
  subst hp
  unfold testProcessLine
  by_cases hc : isCommentLine (p ++ ['\n']) = true
  · simp [hc]
  · simp only [eq_false_of_ne_true hc, Bool.false_eq_true, if_false]
    rw [containsL_vuidMark_append_nl p, hm, anyTrigger_append_nl p, ht]
    simp only [Bool.false_and, Bool.false_eq_true, if_false]
    rw [grabStage_off rfl]
    exact vuidAppendStage_skip (by rw [containsL_vuidMark_append_nl p, hm])

theorem testRunLines_cons (st : TestState) (l : Str) (rest : List Str) :
    testRunLines st (l :: rest) =
      (match testProcessLine st (l ++ ['\n']) with
        | .error e => .error e
        | .ok st2 => testRunLines st2 rest) := rfl

theorem testRunFiles_cons (st : TestState) (f : List Str) (rest : List (List Str)) :
    testRunFiles st (f :: rest) =
      (match testRunLines st f with
        | .error e => .error e
        | .ok st2 => testRunFiles st2 rest) := rfl

theorem testRunLines_inert_prefix {st : TestState} (hg : st.grab_next_line = false)
    (hp : st.prepend = none) {pre : List Str}
    (hpre : ∀ p ∈ pre, containsL vuidMark p = false ∧ anyTrigger p = false)
    (ys : List Str) :
    testRunLines st (pre ++ ys) = testRunLines st ys := by
  induction pre with
  | nil => rfl
  | cons p t ih =>
    have hh := hpre p (by simp)
    rw [List.cons_append, testRunLines_cons,
      testProcessLine_inert hg hp hh.1 hh.2]
    exact ih (fun q hq => hpre q (by simp [hq]))

/-- C6 amended: an identifier token appearing (outside a comment, not as
a broken tail) on a line before any test declaration makes
`TestParser.parse` abort with a KeyError — the current test name is the
initial empty string, which is not a key of the test map — rather than
silently discarding the identifier. -/
theorem c6_pre_declaration_vuid_aborts (pre : List Str) (v : Str) (rest : List Str)
    (hpre : ∀ p ∈ pre, containsL vuidMark p = false ∧ anyTrigger p = false)
    (hvc : isCommentLine v = false)
    (hvm : containsL vuidMark v = true)
    (hvtok : ∃ t ∈ pySplitWs v, containsL vuidMark t = true)
    (hvb : brokenTail v = false)
    (hvt : anyTrigger v = false) :
    TestParser.parse [pre ++ v :: rest] = .error () := by
  unfold TestParser.parse
  rw [testRunFiles_cons, testRunLines_inert_prefix rfl rfl hpre, testRunLines_cons]
  have hstep : testProcessLine testInit (v ++ ['\n']) = .error () := by
    unfold testProcessLine
    rw [isCommentLine_append_ws (by decide) v, hvc]
    simp only [Bool.false_eq_true, if_false]
    rw [show testInit.prepend = none from rfl]
    rw [containsL_vuidMark_append_nl v, hvm, brokenTail_append_ws (by decide) v, hvb]
    simp only [Bool.and_false, Bool.false_eq_true, if_false]
    rw [anyTrigger_append_nl v, hvt]
    simp only [Bool.false_eq_true, if_false]
    rw [grabStage_off rfl]
    refine vuidAppendStage_error ?_ ?_ ?_
    · rfl
    · rw [containsL_vuidMark_append_nl v, hvm]
    · rw [pySplitWs_append_ws (by decide) v]
      obtain ⟨t, ht1, ht2⟩ := hvtok
      exact List.ne_nil_of_mem (List.mem_filter.mpr ⟨ht1, ht2⟩)
  rw [hstep]

/-- Witness for the amended C6: a single assignment line using an
identifier before any test declaration aborts the parse. -/
theorem c6_pre_declaration_vuid_aborts_witness :
    TestParser.parse [[lit "int x;", lit "y = \"VUID-a-b-1\";"]] = .error () := by
  have h := c6_pre_declaration_vuid_aborts [lit "int x;"] (lit "y = \"VUID-a-b-1\";") []
    (by decide) (by decide) (by decide)
    ⟨lit "\"VUID-a-b-1\";", by decide, by decide⟩ (by decide) (by decide)
  simpa using h

/-- C7 counterexample: on the trigger line `TEST_F(VkLayerTest, Foo, Bar)`
the registered test name is `Bar` — the text after the LAST comma — not
`Foo, Bar` as the first-comma rule of the claim predicts; and when the
trigger line ends at the comma, the next line's content `RealName)` never
becomes the test name: the empty string is registered instead. -/
theorem c7_test_name_counterexample :
    (TestParser.parse [[lit "TEST_F(VkLayerTest, Foo, Bar)"]]).map
        (fun st => st.test_to_errors) = .ok [(lit "Bar", [])] ∧
    (TestParser.parse [[lit "TEST_F(VkLayerTest,", lit "    RealName)"]]).map
        (fun st => st.test_to_errors) = .ok [(lit "", [])] :=
  ⟨rfl, rfl⟩

/-- C7 amended: on a trigger line the registered test name is the text
after the last comma, trimmed of whitespace and then of the characters
`' '`, `'{'`, `')'` from both ends; when that trimmed name is empty, no
test is registered from the trigger line and a flag is set, and on the
following line the previously stored (still empty) name is re-trimmed
and registered with a fresh empty identifier list — the following line's
own content is not used as the test name. -/
theorem c7_trigger_test_name (st : TestState) (l l2 : Str)
    (hg : st.grab_next_line = false) (hp : st.prepend = none)
    (hc : isCommentLine (l ++ ['\n']) = false)
    (hm : containsL vuidMark (l ++ ['\n']) = false)
    (ht : anyTrigger (l ++ ['\n']) = true)
    (hc2 : isCommentLine (l2 ++ ['\n']) = false)
    (hm2 : containsL vuidMark (l2 ++ ['\n']) = false)
    (ht2 : anyTrigger (l2 ++ ['\n']) = false) :
    (triggerName (l ++ ['\n']) ≠ [] →
      testRunLines st [l] = .ok { st with
        testname := triggerName (l ++ ['\n']),
        test_to_errors := dictSet st.test_to_errors (triggerName (l ++ ['\n'])) [] }) ∧
    (triggerName (l ++ ['\n']) = [] →
      testRunLines st [l, l2] = .ok { st with
        testname := [],
        grab_next_line := false,
        test_to_errors := dictSet st.test_to_errors [] [] }) := by
  obtain ⟨g, tn, pp, m⟩ := st
  simp only at hg hp
  subst hg
  subst hp
  constructor
  · intro hne
    rw [testRunLines_cons]
    unfold testProcessLine
    rw [hc]
    simp only [Bool.false_eq_true, if_false, hm]
    simp only [Bool.false_and, Bool.false_eq_true, if_false, ht, if_true]
    rw [if_neg hne]
    rw [grabStage_off rfl, vuidAppendStage_skip hm]
    rfl
  · intro hnil
    rw [testRunLines_cons]
    unfold testProcessLine
    rw [hc]
    simp only [Bool.false_eq_true, if_false, hm]
    simp only [Bool.false_and, Bool.false_eq_true, if_false, ht, if_true]
    rw [if_pos hnil, hnil]
    show testRunLines (⟨true, [], none, m⟩ : TestState) [l2] = _
    rw [testRunLines_cons]
    unfold testProcessLine
    rw [hc2]
    simp only [Bool.false_eq_true, if_false, hm2]
    simp only [Bool.false_and, Bool.false_eq_true, if_false, ht2]
    rw [show grabStage ⟨true, [], none, m⟩ =
        ⟨false, [], none, dictSet m [] []⟩ from by simp [grabStage, pyStrip,
          dropLeadingWS, dropTrailingWS, pyStripChars]]
    rw [vuidAppendStage_skip hm2]
    rfl

/-- Witness for the amended C7: a one-line declaration registers the
after-last-comma name, and a split declaration registers the empty name. -/
theorem c7_trigger_test_name_witness :
    (triggerName (lit "TEST_F(VkLayerTest, GoodTest)" ++ ['\n']) ≠ [] ∧
      testRunLines testInit [lit "TEST_F(VkLayerTest, GoodTest)"] = .ok { testInit with
        testname := triggerName (lit "TEST_F(VkLayerTest, GoodTest)" ++ ['\n']),
        test_to_errors := dictSet testInit.test_to_errors
          (triggerName (lit "TEST_F(VkLayerTest, GoodTest)" ++ ['\n'])) [] }) ∧
    (triggerName (lit "TEST_F(VkLayerTest," ++ ['\n']) = [] ∧
      testRunLines testInit [lit "TEST_F(VkLayerTest,", lit "    RealName)"] =
        .ok { testInit with
          testname := [],
          grab_next_line := false,
          test_to_errors := dictSet testInit.test_to_errors [] [] }) := by
  constructor
  · exact ⟨by decide,
      (c7_trigger_test_name testInit (lit "TEST_F(VkLayerTest, GoodTest)")
        (lit "x") rfl rfl (by decide) (by decide) (by decide) (by decide) (by decide)
        (by decide)).1 (by decide)⟩
  · exact ⟨by decide,
      (c7_trigger_test_name testInit (lit "TEST_F(VkLayerTest,")
        (lit "    RealName)") rfl rfl (by decide) (by decide) (by decide) (by decide)
        (by decide) (by decide)).2 (by decide)⟩

/-! ## Claim C2: the pending prefix at file boundaries -/

/-- Two files where the first ends in a broken identifier tail. -/
def leakFiles : List (Str × List Str) :=
  [(lit "f1", [lit "x \"VUID-a-b-\""]), (lit "f2", [lit "\"VUID-c-d-1\" z"])]

/-- C2 counterexample: `prepend` is initialised once, before the file
loop, and is NOT reset at the start of each new file.  A broken tail on
the last line of `f1` is therefore joined into the first line of `f2`:
the identifier `VUID-c-d-1` is never recorded, and the mangled key
`VUID-a-b-VUID-c-d-1` is recorded instead — the dangling prefix is not
dropped and does affect extraction from the next scanned file. -/
theorem c2_prepend_leak_counterexample :
    lookupA (lit "VUID-c-d-1") (ValidationSource.parse leakFiles).vuid_count_dict = none ∧
    lookupA (lit "VUID-a-b-VUID-c-d-1") (ValidationSource.parse leakFiles).vuid_count_dict =
      some ⟨1, [(lit "f2", 1)]⟩ :=
  ⟨rfl, rfl⟩

theorem parse_append_single (fs : List (Str × List Str)) (nm : Str) (ls : List Str) :
    ValidationSource.parse (fs ++ [(nm, ls)]) =
      srcRunLines nm 0 (srcParseFiles ⟨none, [], 0⟩ fs) ls := by
  unfold ValidationSource.parse
  rw [srcParseFiles_append]
  rfl

/-- C2 amended: the pending prefix survives file boundaries (see the
counterexample), and a broken identifier tail on the very last line of
the LAST scanned file — reached with no pending prefix — leaves a
dangling prefix that is silently dropped: the occurrence map is exactly
what it would be without that final line, and the dangling prefix is
still pending when the scan ends. -/
theorem c2_dangling_final_prefix (fs : List (Str × List Str)) (nm : Str) (ls : List Str)
    (L : Str)
    (hmid : (ValidationSource.parse (fs ++ [(nm, ls)])).prepend = none)
    (hc : isCommentLine L = false) (hm : containsL vuidMark L = true)
    (hb : brokenTail L = true) :
    (ValidationSource.parse (fs ++ [(nm, ls ++ [L])])).vuid_count_dict =
      (ValidationSource.parse (fs ++ [(nm, ls)])).vuid_count_dict ∧
    (ValidationSource.parse (fs ++ [(nm, ls ++ [L])])).prepend = some (L ++ ['\n']) := by
  have heq : ValidationSource.parse (fs ++ [(nm, ls ++ [L])]) =
      srcProcessLine nm (ls.length + 1) (ValidationSource.parse (fs ++ [(nm, ls)]))
        (L ++ ['\n']) := by
    rw [parse_append_single fs nm (ls ++ [L]), srcRunLines_append,
      ← parse_append_single fs nm ls]
    simp [srcRunLines]
  rw [heq, srcProcessLine_broken hmid nm (ls.length + 1)
    (by rw [isCommentLine_append_ws (by decide) L, hc])
    (containsL_append_of_left hm ['\n'])
    (by rw [brokenTail_append_ws (by decide) L, hb])]
  exact ⟨rfl, rfl⟩

/-- Witness for the amended C2: one file whose last line is a broken
tail; the identifier from the first line is recorded, the broken line
adds nothing and stays pending. -/
theorem c2_dangling_final_prefix_witness :
    (ValidationSource.parse [(lit "f", [lit "x \"VUID-a-b-1\" y"])]).prepend = none ∧
    (ValidationSource.parse
        [(lit "f", [lit "x \"VUID-a-b-1\" y", lit "x \"VUID-c-d-\""])]).vuid_count_dict =
      (ValidationSource.parse [(lit "f", [lit "x \"VUID-a-b-1\" y"])]).vuid_count_dict ∧
    (ValidationSource.parse
        [(lit "f", [lit "x \"VUID-a-b-1\" y", lit "x \"VUID-c-d-\""])]).prepend =
      some (lit "x \"VUID-c-d-\"" ++ ['\n']) := by
  have h := c2_dangling_final_prefix [] (lit "f") [lit "x \"VUID-a-b-1\" y"]
    (lit "x \"VUID-c-d-\"") (by decide) (by decide) (by decide) (by decide)
  exact ⟨by decide, by simpa using h.1, by simpa using h.2⟩

/-! ## Claim C1: reflow correctness of the broken-identifier join -/

theorem srcRunLines_one (sf : Str) (n : Nat) (st : SrcState) (l : Str) :
    srcRunLines sf n st [l] = srcProcessLine sf (n + 1) st (l ++ ['\n']) := rfl

theorem srcRunLines_two (sf : Str) (n : Nat) (st : SrcState) (l1 l2 : Str) :
    srcRunLines sf n st [l1, l2] =
      srcProcessLine sf (n + 2) (srcProcessLine sf (n + 1) st (l1 ++ ['\n']))
        (l2 ++ ['\n']) := rfl

/-- The reassembled line built by the prepend join from a line `K`
ending in the broken token tail `-"` and a continuation that is leading
whitespace, one quote, and the identifier remainder, is exactly the
unbroken line (the split point removed) with its newline. -/
theorem join_eq_unbroken (c0 w r : Str) (hw : ∀ ch ∈ w, isWS ch = true)
    (hr : lstripQuotes r = r) :
    sliceToNeg2 ((c0 ++ ['-', '\"']) ++ ['\n']) ++
        lstripQuotes (dropLeadingWS ((w ++ '\"' :: r) ++ ['\n'])) =
      (c0 ++ '-' :: r) ++ ['\n'] := by
  have h1 : sliceToNeg2 ((c0 ++ ['-', '\"']) ++ ['\n']) = c0 ++ ['-'] := by
    unfold sliceToNeg2
    rw [List.dropLast_concat]
    rw [show c0 ++ ['-', '\"'] = (c0 ++ ['-']) ++ ['\"'] from by simp]
    rw [List.dropLast_concat]
  have h2 : dropLeadingWS ((w ++ '\"' :: r) ++ ['\n']) = '\"' :: (r ++ ['\n']) := by
    rw [show (w ++ '\"' :: r) ++ ['\n'] = w ++ '\"' :: (r ++ ['\n']) from by simp]
    rw [dropLeadingWS_append_allws hw]
    simp [dropLeadingWS, List.dropWhile_cons, show isWS '\"' = false from by decide]
  have h3 : lstripQuotes ('\"' :: (r ++ ['\n'])) = r ++ ['\n'] := by
    rw [show lstripQuotes ('\"' :: (r ++ ['\n'])) = lstripQuotes (r ++ ['\n']) from by
      simp [lstripQuotes, List.dropWhile_cons]]
    exact lstripQuotes_fix_append hr '\n' (by decide)
  rw [h1, h2, h3]
  simp

/-- Processing the broken pair of lines from a state with no pending
prefix, and processing the unbroken line from the same state, both end
in `srcLineCore` on the same reassembled line; only the recorded line
number differs. -/
theorem c1_core (sf : Str) (n : Nat) (st : SrcState) (hp : st.prepend = none)
    (c0 w r : Str)
    (hw : ∀ ch ∈ w, isWS ch = true)
    (hr : lstripQuotes r = r)
    (hac : isCommentLine (c0 ++ ['-', '\"']) = false)
    (ham : containsL vuidMark (c0 ++ ['-', '\"']) = true)
    (hab : brokenTail (c0 ++ ['-', '\"']) = true) :
    srcRunLines sf n st [c0 ++ ['-', '\"'], w ++ '\"' :: r] =
      srcLineCore sf (n + 2) st ((c0 ++ '-' :: r) ++ ['\n']) ∧
    srcRunLines sf n st [c0 ++ '-' :: r] =
      srcLineCore sf (n + 1) st ((c0 ++ '-' :: r) ++ ['\n']) := by
  obtain ⟨pp, cd, dc⟩ := st
  simp only at hp
  subst hp
  have hcu : isCommentLine ((c0 ++ '-' :: r) ++ ['\n']) = false := by
    rw [isCommentLine_append_ws (by decide), isCommentLine_dash_indep c0 r ['\"']]
    exact hac
  constructor
  · rw [srcRunLines_two]
    have hs1 : srcProcessLine sf (n + 1) ⟨none, cd, dc⟩ ((c0 ++ ['-', '\"']) ++ ['\n']) =
        { (⟨none, cd, dc⟩ : SrcState) with
          prepend := some ((c0 ++ ['-', '\"']) ++ ['\n']) } :=
      srcProcessLine_broken rfl sf (n + 1)
        (by rw [isCommentLine_append_ws (by decide)]; exact hac)
        (containsL_append_of_left ham ['\n'])
        (by rw [brokenTail_append_ws (by decide)]; exact hab)
    rw [hs1]
    have hs2 := srcProcessLine_join
      (show ({ (⟨none, cd, dc⟩ : SrcState) with
          prepend := some ((c0 ++ ['-', '\"']) ++ ['\n']) } : SrcState).prepend =
        some ((c0 ++ ['-', '\"']) ++ ['\n']) from rfl)
      sf (n + 2)
      (show isCommentLine ((w ++ '\"' :: r) ++ ['\n']) = false from by
        rw [show (w ++ '\"' :: r) ++ ['\n'] = w ++ '\"' :: (r ++ ['\n']) from by simp]
        exact isCommentLine_ws_quote hw (r ++ ['\n']))
    rw [hs2, join_eq_unbroken c0 w r hw hr]
  · rw [srcRunLines_one]
    unfold srcProcessLine
    rw [hcu]
    simp

/-- The scanner state reached after scanning the files `fs1` and then the
first `pre` lines of the current file `sf`. -/
def parseUpTo (fs1 : List (Str × List Str)) (sf : Str) (pre : List Str) : SrcState :=
  srcRunLines sf 0 (srcParseFiles ⟨none, [], 0⟩ fs1) pre

theorem parse_mid (fs1 : List (Str × List Str)) (nm : Str) (ls : List Str)
    (fs2 : List (Str × List Str)) :
    ValidationSource.parse (fs1 ++ (nm, ls) :: fs2) =
      srcParseFiles (srcRunLines nm 0 (srcParseFiles ⟨none, [], 0⟩ fs1) ls) fs2 := by
  unfold ValidationSource.parse
  rw [show fs1 ++ (nm, ls) :: fs2 = (fs1 ++ [(nm, ls)]) ++ fs2 from by simp,
    srcParseFiles_append, srcParseFiles_append]
  rfl

/-- C1: reflow correctness.  If within some scanned file a line `K` ends
(with no trailing whitespace) in a whitespace-delimited token that starts
with `"VUID-` and ends with `-"`, line `K` is not a comment line, and
line `K+1` is leading whitespace, one quote, and the identifier
remainder (not itself starting with a quote), and the scanner reaches
line `K` with no pending prefix, then the whole scan agrees — up to the
recorded line numbers — with the scan of the same input in which the two
lines are written as one unbroken line with the split point removed
(`projEq`: same pending prefix, same keys and occurrence counts, same
duplicate counter).  Moreover, when the unbroken line yields exactly one
canonical identifier `v`, both the broken and the unbroken variant
record `v` as exactly one additional occurrence. -/
theorem c1_reflow_correctness (fs1 fs2 : List (Str × List Str)) (sf : Str)
    (pre post : List Str) (c0 w r v : Str)
    (hw : ∀ ch ∈ w, isWS ch = true)
    (hr : lstripQuotes r = r)
    (hac : isCommentLine (c0 ++ ['-', '\"']) = false)
    (ham : containsL vuidMark (c0 ++ ['-', '\"']) = true)
    (hab : brokenTail (c0 ++ ['-', '\"']) = true)
    (hmid : (parseUpTo fs1 sf pre).prepend = none) :
    projEq
      (ValidationSource.parse
        (fs1 ++ (sf, pre ++ [c0 ++ ['-', '\"'], w ++ '\"' :: r] ++ post) :: fs2))
      (ValidationSource.parse (fs1 ++ (sf, pre ++ [c0 ++ '-' :: r] ++ post) :: fs2)) ∧
    (extractVuids ((c0 ++ '-' :: r) ++ ['\n']) = [v] →
      containsL vuidMark ((c0 ++ '-' :: r) ++ ['\n']) = true →
      brokenTail ((c0 ++ '-' :: r) ++ ['\n']) = false →
      countOf v (srcRunLines sf pre.length (parseUpTo fs1 sf pre)
          [c0 ++ ['-', '\"'], w ++ '\"' :: r]).vuid_count_dict =
        countOf v (parseUpTo fs1 sf pre).vuid_count_dict + 1 ∧
      countOf v (srcRunLines sf pre.length (parseUpTo fs1 sf pre)
          [c0 ++ '-' :: r]).vuid_count_dict =
        countOf v (parseUpTo fs1 sf pre).vuid_count_dict + 1) := by
  have hcore := c1_core sf pre.length (parseUpTo fs1 sf pre) hmid c0 w r hw hr hac ham hab
  constructor
  · have h1 : ValidationSource.parse
        (fs1 ++ (sf, pre ++ [c0 ++ ['-', '\"'], w ++ '\"' :: r] ++ post) :: fs2) =
        srcParseFiles (srcRunLines sf (pre.length + 2)
          (srcLineCore sf (pre.length + 2) (parseUpTo fs1 sf pre)
            ((c0 ++ '-' :: r) ++ ['\n'])) post) fs2 := by
      rw [parse_mid, srcRunLines_append, srcRunLines_append]
      simp only [List.length_append, List.length_cons, List.length_nil, Nat.zero_add]
      rw [show srcRunLines sf pre.length
          (srcRunLines sf 0 (srcParseFiles ⟨none, [], 0⟩ fs1) pre)
          [c0 ++ ['-', '\"'], w ++ '\"' :: r] =
        srcLineCore sf (pre.length + 2) (parseUpTo fs1 sf pre)
          ((c0 ++ '-' :: r) ++ ['\n']) from hcore.1]
    have h2 : ValidationSource.parse (fs1 ++ (sf, pre ++ [c0 ++ '-' :: r] ++ post) :: fs2) =
        srcParseFiles (srcRunLines sf (pre.length + 1)
          (srcLineCore sf (pre.length + 1) (parseUpTo fs1 sf pre)
            ((c0 ++ '-' :: r) ++ ['\n'])) post) fs2 := by
      rw [parse_mid, srcRunLines_append, srcRunLines_append]
      simp only [List.length_append, List.length_cons, List.length_nil, Nat.zero_add]
      rw [show srcRunLines sf pre.length
          (srcRunLines sf 0 (srcParseFiles ⟨none, [], 0⟩ fs1) pre) [c0 ++ '-' :: r] =
        srcLineCore sf (pre.length + 1) (parseUpTo fs1 sf pre)
          ((c0 ++ '-' :: r) ++ ['\n']) from hcore.2]
    rw [h1, h2]
    exact projEq_srcParseFiles
      (projEq_srcRunLines
        (projEq_srcLineCore (projEq_refl _) sf (pre.length + 2) (pre.length + 1) _)
        sf (pre.length + 2) (pre.length + 1) post) fs2
  · intro hx hum hub
    have hcl : ∀ k : Nat, srcLineCore sf k (parseUpTo fs1 sf pre) ((c0 ++ '-' :: r) ++ ['\n']) =
        insertVuid sf k (parseUpTo fs1 sf pre) v := by
      intro k
      unfold srcLineCore
      rw [hum]
      simp only [if_true, hub, Bool.false_eq_true, if_false, hx, List.foldl_cons,
        List.foldl_nil]
    constructor
    · rw [hcore.1, hcl (pre.length + 2)]
      exact countOf_insertVuid_self sf (pre.length + 2) (parseUpTo fs1 sf pre) v
    · rw [hcore.2, hcl (pre.length + 1)]
      exact countOf_insertVuid_self sf (pre.length + 1) (parseUpTo fs1 sf pre) v

/-- Witness for C1 at a concrete clang-broken identifier: the broken
pair and the unbroken line produce projection-equal scans and one
occurrence of `VUID-abc-def-01234`. -/
theorem c1_reflow_correctness_witness :
    (∀ ch ∈ lit "    ", isWS ch = true) ∧
    (parseUpTo [] (lit "f") []).prepend = none ∧
    projEq
      (ValidationSource.parse [(lit "f",
        [] ++ [lit "foo \"VUID-abc-def" ++ ['-', '\"'],
          lit "    " ++ '\"' :: lit "01234\");"] ++ [])])
      (ValidationSource.parse [(lit "f",
        [] ++ [lit "foo \"VUID-abc-def" ++ '-' :: lit "01234\");"] ++ [])]) ∧
    countOf (lit "VUID-abc-def-01234")
      (srcRunLines (lit "f") (List.length ([] : List Str)) (parseUpTo [] (lit "f") [])
        [lit "foo \"VUID-abc-def" ++ ['-', '\"'],
          lit "    " ++ '\"' :: lit "01234\");"]).vuid_count_dict =
      countOf (lit "VUID-abc-def-01234") (parseUpTo [] (lit "f") []).vuid_count_dict + 1 := by
  have h := c1_reflow_correctness [] [] (lit "f") [] []
    (lit "foo \"VUID-abc-def") (lit "    ") (lit "01234\");") (lit "VUID-abc-def-01234")
    (by decide) (by decide) (by decide) (by decide) (by decide) (by decide)
  exact ⟨by decide, by decide, h.1, (h.2 (by decide) (by decide) (by decide)).1⟩

/-- C6 counterexample: a test file whose only line uses an identifier
before any test declaration makes `TestParser.parse` raise (KeyError on
the unregistered empty test name) instead of completing with the
identifier silently discarded. -/
theorem c6_silent_discard_counterexample :
    TestParser.parse [[lit "x = \"VUID-q-r-5\";"]] = .error () := rfl
